import Mathlib

/-!
MoreMessageButton (app/components/post_list/more_messages_button)

A shallow embedding of the class component `MoreMessageButton`: its React
state (`state.moreCount`), its instance fields (`visible`, `prevInitialIndex`,
`disableViewableItemsHandler`, `viewableItemsChangedTimer`), the timeouts it
has outstanding in the JavaScript runtime, and the calls it makes to its
collaborators (`scrollToIndex`, `Animated.spring(...).start()`), recorded as a
list of effects returned by every method.

Numbers are integers (`Int`): the props are list indices and counts.
-/

namespace MoreMessages

/-- Offset of the hidden button (`export const HIDDEN_TOP = -100`). -/
def HIDDEN_TOP : Int := -100

/-- Offset of the shown button (`export const SHOWN_TOP = 10`). -/
def SHOWN_TOP : Int := 10

/-- The props read by the methods of the component. `deepLinkURL` is optional
(`PropTypes.string` without `isRequired`). -/
structure Props where
  channelId : String
  unreadCount : Int
  initialIndex : Int
  deepLinkURL : Option String
  deriving DecidableEq, Repr

/-- One element of the array handed to `onViewableItemsChanged`; only its
`index` is read (`viewableItems.map((item) => item.index)`). -/
structure ViewToken where
  index : Int
  deriving DecidableEq, Repr

/-- Calls made to collaborators: `Animated.spring(this.top, {toValue}).start()`
and `scrollToIndex(index)`. -/
inductive Effect where
  | spring (toValue : Int)
  | scrollToIndex (index : Int)
  deriving DecidableEq, Repr

/-- A timeout outstanding in the runtime: the handle `setTimeout` returned for
it, its delay in milliseconds, and the array captured by its callback
`() => this.viewableItemsChangedHandler(viewableIndeces)`. -/
structure Timeout where
  id : Nat
  delay : Nat
  viewableIndeces : List Int
  deriving DecidableEq, Repr

/-- The component instance together with the part of the runtime it touches.

* `moreCount` is `this.state.moreCount`.
* `visible` and `disableViewableItemsHandler` are instance fields that the
  class never initialises; they are read only in boolean position
  (`!this.visible`, `if (this.visible)`, `!this.disableViewableItemsHandler`),
  so `undefined` is represented by `false`.
* `prevInitialIndex` is compared with `===`, so `undefined` is kept (`none`).
* `viewableItemsChangedTimer` is the last handle stored by
  `this.viewableItemsChangedTimer = setTimeout(...)`; nothing in the class
  ever assigns anything else to the field.
* `timers` are the timeouts of this component still outstanding in the runtime
  and `lastTimerId` is the last handle the runtime gave out. -/
structure Component where
  moreCount : Int
  visible : Bool
  prevInitialIndex : Option Int
  disableViewableItemsHandler : Bool
  viewableItemsChangedTimer : Option Nat
  timers : List Timeout
  lastTimerId : Nat
  deriving DecidableEq, Repr

/-- Truthiness of an optional string: `undefined` and the empty string are falsy. -/
def truthyString : Option String → Bool
  | some s => s != ""
  | none => false

/-- Truthiness of the timer field: `undefined` and `0` are falsy. -/
def truthyTimer : Option Nat → Bool
  | some (_ + 1) => true
  | _ => false

/-- The runtime call `clearTimeout(handle)`: the timeout with that handle, if
still outstanding, is dropped. -/
def clearTimeout (handle : Option Nat) (s : Component) : Component :=
  match handle with
  | some id => { s with timers := s.timers.filter (fun t => t.id != id) }
  | none => s

/-- The runtime call `setTimeout(callback, delay)`, for the one callback the
component registers: a fresh positive handle is returned and the timeout is
queued. -/
def setTimeout (delay : Nat) (viewableIndeces : List Int) (s : Component) : Nat × Component :=
  (s.lastTimerId + 1,
   { s with
     timers := s.timers ++ [{ id := s.lastTimerId + 1, delay := delay, viewableIndeces := viewableIndeces }]
     lastTimerId := s.lastTimerId + 1 })

/-- The instance as the class field initialisers leave it: `state = {moreCount: 0}`,
every other field `undefined`. `lastTimerId` is the runtime counter at that time. -/
def initial (lastTimerId : Nat) : Component :=
  { moreCount := 0
    visible := false
    prevInitialIndex := none
    disableViewableItemsHandler := false
    viewableItemsChangedTimer := none
    timers := []
    lastTimerId := lastTimerId }

/-- The guarded clearing `if (this.viewableItemsChangedTimer) clearTimeout(...)` that
opens `reset`, closes `componentWillUnmount` and follows the guard of
`onViewableItemsChanged`: the same three lines in each. -/
def clearPending (s : Component) : Component :=
  if truthyTimer s.viewableItemsChangedTimer then
    clearTimeout s.viewableItemsChangedTimer s else s

/-- Method `hide`. -/
def hide (s : Component) : Component × List Effect :=
  if s.visible then
    ({ s with visible := false }, [Effect.spring HIDDEN_TOP])
  else
    (s, [])

/-- Method `show` (`show` is a reserved word here, hence the underscore). -/
def show_ (p : Props) (s : Component) : Component × List Effect :=
  if !s.visible && decide (s.moreCount > 0) && !truthyString p.deepLinkURL then
    ({ s with visible := true }, [Effect.spring SHOWN_TOP])
  else
    (s, [])

/-- Method `reset`. -/
def reset (s : Component) : Component × List Effect :=
  let s1 := clearPending s
  let r := hide s1
  ({ r.1 with prevInitialIndex := some 0, disableViewableItemsHandler := false }, r.2)

/-- Method `cancel`. -/
def cancel (s : Component) : Component × List Effect :=
  let r := hide s
  ({ r.1 with disableViewableItemsHandler := true }, r.2)

/-- Method `componentDidMount`: the listener registration has no effect on the
fields; then `this.reset()`. -/
def componentDidMount (s : Component) : Component × List Effect :=
  reset s

/-- Method `componentDidUpdate(prevProps)`. -/
def componentDidUpdate (prevProps p : Props) (s : Component) : Component × List Effect :=
  if p.channelId != prevProps.channelId then reset s else (s, [])

/-- Method `componentWillUnmount`, as far as the timer is concerned. -/
def componentWillUnmount (s : Component) : Component :=
  clearPending s

/-- Method `onMoreMessagesPress`. -/
def onMoreMessagesPress (p : Props) (s : Component) : Component × List Effect :=
  if s.prevInitialIndex = some p.initialIndex then
    (s, [])
  else
    ({ s with prevInitialIndex := some p.initialIndex }, [Effect.scrollToIndex p.initialIndex])

/-- The test `viewableIndeces[viewableIndeces.length - 1] >= initialIndex`; an
index out of range reads `undefined`, which compares false. -/
def lastAtLeast (viewableIndeces : List Int) (initialIndex : Int) : Bool :=
  match viewableIndeces[viewableIndeces.length - 1]? with
  | some x => decide (x ≥ initialIndex)
  | none => false

/-- The test `viewableIndeces[0] === 0`. -/
def firstIsZero (viewableIndeces : List Int) : Bool :=
  match viewableIndeces[0]? with
  | some x => decide (x = 0)
  | none => false

/-- Method `onViewableItemsChanged`. -/
def onViewableItemsChanged (p : Props) (viewableItems : List ViewToken) (s : Component) :
    Component × List Effect :=
  if decide (p.initialIndex ≤ 0) || decide (viewableItems.length = 0) then
    (s, [])
  else
    let s1 := clearPending s
    if !s1.disableViewableItemsHandler then
      let viewableIndeces := viewableItems.map (fun item => item.index)
      if decide (p.initialIndex ≥ p.unreadCount) && lastAtLeast viewableIndeces p.initialIndex then
        let r := hide s1
        let s2 := { r.1 with disableViewableItemsHandler := true }
        if firstIsZero viewableIndeces then
          (s2, r.2 ++ [Effect.scrollToIndex p.initialIndex])
        else
          (s2, r.2)
      else
        let delay := if truthyTimer s1.viewableItemsChangedTimer then 100 else 0
        let t := setTimeout delay viewableIndeces s1
        ({ t.2 with viewableItemsChangedTimer := some t.1 }, [])
    else
      (s1, [])

/-- Method `viewableItemsChangedHandler`. `viewableIndeces.pop() || 0` is the
last element, or `0` when the array is empty (or the element is `0`).
`this.setState({moreCount}, this.show)` stores the count and then runs `show`. -/
def viewableItemsChangedHandler (p : Props) (viewableIndeces : List Int) (s : Component) :
    Component × List Effect :=
  if !viewableIndeces.contains p.initialIndex then
    let readCount := viewableIndeces.getLast?.getD 0
    let moreCount := p.unreadCount - readCount
    if moreCount > 0 then
      show_ p { s with moreCount := moreCount }
    else
      (s, [])
  else
    (s, [])

/-- The runtime fires the `k`-th outstanding timeout: it leaves the queue and its
callback runs. Nothing happens when fewer timeouts are outstanding. -/
def fireTimer (p : Props) (k : Nat) (s : Component) : Component × List Effect :=
  match s.timers[k]? with
  | some t =>
    viewableItemsChangedHandler p t.viewableIndeces { s with timers := s.timers.eraseIdx k }
  | none => (s, [])

/-- The value of `countText`: the number `Math.min(60, moreCount)`, or the
string obtained from it by `countText += '+'`. -/
inductive CountText where
  | number (n : Int)
  | text (s : String)
  deriving DecidableEq, Repr

/-- The object returned by `intlMoreMessage`. -/
structure Message where
  id : String
  defaultMessage : String
  values : CountText
  deriving DecidableEq, Repr

/-- Method `intlMoreMessage`. -/
def intlMoreMessage (firstPage singular : Bool) (countText : CountText) : Message :=
  if firstPage then
    if singular then
      { id := "mobile.more_messages.firstPageSingular"
        defaultMessage := "\x7bcountText\x7d new message"
        values := countText }
    else
      { id := "mobile.more_messages.firstPagePlural"
        defaultMessage := "\x7bcountText\x7d new messages"
        values := countText }
  else if singular then
    { id := "mobile.more_messages.nextPageSingular"
      defaultMessage := "\x7bcountText\x7d more new message"
      values := countText }
  else
    { id := "mobile.more_messages.nextPagePlural"
      defaultMessage := "\x7bcountText\x7d more new messages"
      values := countText }

/-- Method `moreMessage`. -/
def moreMessage (s : Component) : Message :=
  let n := min 60 s.moreCount
  let countText := if s.moreCount > 60 then CountText.text (toString n ++ "+") else CountText.number n
  let firstPage := decide (s.prevInitialIndex = some 0)
  let singular := decide (s.moreCount = 1)
  intlMoreMessage firstPage singular countText

/-- The events that drive a mounted component. -/
inductive Event where
  | reset
  | show_
  | hide
  | cancel
  | onMoreMessagesPress
  | onViewableItemsChanged (viewableItems : List ViewToken)
  | timerFired (k : Nat)
  deriving DecidableEq, Repr

/-- One event, under the props current when it is delivered. -/
def step (p : Props) (e : Event) (s : Component) : Component × List Effect :=
  match e with
  | Event.reset => reset s
  | Event.show_ => show_ p s
  | Event.hide => hide s
  | Event.cancel => cancel s
  | Event.onMoreMessagesPress => onMoreMessagesPress p s
  | Event.onViewableItemsChanged viewableItems => onViewableItemsChanged p viewableItems s
  | Event.timerFired k => fireTimer p k s

/-- A sequence of events, each with its props; the effects are concatenated in order. -/
def run : List (Props × Event) → Component → Component × List Effect
  | [], s => (s, [])
  | (p, e) :: rest, s =>
    let r := step p e s
    let r2 := run rest r.1
    (r2.1, r.2 ++ r2.2)

/-- A newly mounted component: the initialised instance after `componentDidMount`. -/
def mounted (lastTimerId : Nat) : Component :=
  (componentDidMount (initial lastTimerId)).1

/-- The indices passed to `scrollToIndex`, in call order. -/
def scrollCalls : List Effect → List Int
  | [] => []
  | Effect.scrollToIndex i :: rest => i :: scrollCalls rest
  | Effect.spring _ :: rest => scrollCalls rest

/-- The targets of the started animations, in call order. -/
def springCalls : List Effect → List Int
  | [] => []
  | Effect.spring v :: rest => v :: springCalls rest
  | Effect.scrollToIndex _ :: rest => springCalls rest

/-- Every outstanding timeout is the one the timer field refers to, and there
is at most one. -/
def TimerOwned (s : Component) : Prop :=
  (∀ t ∈ s.timers, s.viewableItemsChangedTimer = some t.id ∧ t.id ≠ 0) ∧ s.timers.length ≤ 1

instance (s : Component) : Decidable (TimerOwned s) := by
  unfold TimerOwned; infer_instance

/-- States a mounted component can be in. -/
def Reachable (s : Component) : Prop :=
  ∃ (n : Nat) (trace : List (Props × Event)), (run trace (mounted n)).1 = s

/-- The items with the given indices. -/
def items (indices : List Int) : List ViewToken :=
  indices.map (fun i => { index := i })

/-- Two states that cannot be told apart by what the component does next: the same
`visible`, `prevInitialIndex` and latch, outstanding evaluations of the same indices,
and the same `moreCount` whenever the button is visible. The timer handle, the delay
of an outstanding timeout and the count behind a hidden button may differ. -/
def Agree (s t : Component) : Prop :=
  s.visible = t.visible ∧
  s.prevInitialIndex = t.prevInitialIndex ∧
  s.disableViewableItemsHandler = t.disableViewableItemsHandler ∧
  s.timers.map (fun x => x.viewableIndeces) = t.timers.map (fun x => x.viewableIndeces) ∧
  (s.visible = true → s.moreCount = t.moreCount)

/-- The count is never negative, and a visible button has a positive count. -/
def CountInv (s : Component) : Prop :=
  0 ≤ s.moreCount ∧ (s.visible = true → 0 < s.moreCount)

/-- A component on a clock: for each handle given out since the clock started, the
time in milliseconds from which its timeout may fire, and the index sequences of the
evaluations (`viewableItemsChangedHandler` calls) that have run, in order. -/
structure Clocked where
  component : Component
  due : List (Nat × Nat)
  evaluations : List (List Int)
  deriving DecidableEq, Repr

/-- The time from which the timeout with handle `id` may fire. -/
def dueOf (due : List (Nat × Nat)) (id : Nat) : Option Nat :=
  (due.find? (fun d => d.1 == id)).map (fun d => d.2)

/-- Position of the first outstanding timeout that fell due strictly before time `t`. -/
def firstDue (c : Clocked) (t : Nat) : Option Nat :=
  c.component.timers.findIdx? (fun tm =>
    match dueOf c.due tm.id with
    | some d => decide (d < t)
    | none => false)

/-- The runtime lets the timeouts that fell due before time `t` fire, first position
first, under the props `p`, and each firing is recorded. `fuel` bounds the number of
firings; a callback never sets a timeout, so the length of the queue is enough. -/
def fireDue (p : Props) (t : Nat) : Nat → Clocked → Clocked × List Effect
  | 0, c => (c, [])
  | fuel + 1, c =>
    match firstDue c t with
    | none => (c, [])
    | some k =>
      match c.component.timers[k]? with
      | none => (c, [])
      | some tm =>
        let r := fireTimer p k c.component
        let r2 := fireDue p t fuel
          { c with component := r.1, evaluations := c.evaluations ++ [tm.viewableIndeces] }
        (r2.1, r.2 ++ r2.2)

/-- Time advances to `t` under the props `p`: every timeout due before `t` fires. -/
def advance (p : Props) (t : Nat) (c : Clocked) : Clocked × List Effect :=
  fireDue p t c.component.timers.length c

/-- An event handled at time `t`: the component takes the step, and a timeout set
during it (its handle is newer than the last one given out before) may fire from
`t + delay` on. -/
def handleAt (t : Nat) (p : Props) (e : Event) (c : Clocked) : Clocked × List Effect :=
  let r := step p e c.component
  ({ c with
      component := r.1
      due := (r.1.timers.filter (fun tm => decide (c.component.lastTimerId < tm.id))).map
        (fun tm => (tm.id, t + tm.delay)) ++ c.due },
   r.2)

/-- An event arriving at time `t`: the timeouts due before `t` fire first, under the
props `pf` current until then, and then the event is handled under the props `p`. -/
def deliver (t : Nat) (pf p : Props) (e : Event) (c : Clocked) : Clocked × List Effect :=
  let a := advance pf t c
  let r := handleAt t p e a.1
  (r.1, a.2 ++ r.2)

/-- Two `onViewableItemsChanged` calls, the first handled at time `t1` and the second
arriving at time `t2`, with nothing but the clock between them, after which time
advances to `t3`. -/
def twoCalls (t1 t2 t3 : Nat) (p1 pf p2 q : Props) (vs1 vs2 : List ViewToken) (c : Clocked) :
    Clocked :=
  (advance q t3
    (deliver t2 pf p2 (Event.onViewableItemsChanged vs2)
      (handleAt t1 p1 (Event.onViewableItemsChanged vs1) c).1).1).1

/-- A newly mounted component at the start of the clock. -/
def clockedMount (lastTimerId : Nat) : Clocked :=
  { component := mounted lastTimerId, due := [], evaluations := [] }

end MoreMessages

/-! ## Network indicator connector (app/components/network_indicator/index.js) -/

namespace NetworkIndicator

/-- What an evaluation can throw. -/
inductive JsError where
  | referenceError (name : String)
  | typeError (message : String)
  deriving DecidableEq, Repr

/-- The object `state.requests.general.websocket`, of which `status` and `error`
are read. -/
structure Websocket where
  status : String
  error : Int
  deriving DecidableEq, Repr

/-- What `mapStateToProps` reads of its surroundings, for a store state of type `σ`:
the path `state.requests.general.websocket` (absent when the store has none) and the
imported selectors, whose modules are not part of the sources at hand. The channel
argument of `isManuallyUnread` is whatever value the caller passes. -/
structure Env (σ : Type) where
  websocket : σ → Option Websocket
  getCurrentChannelId : σ → String
  isManuallyUnread : σ → String → Bool
  isLandscape : σ → Bool
  getConnection : σ → Bool

/-- The object returned by `mapStateToProps`. -/
structure Props where
  currentChannelId : String
  isManuallyUnread : Bool
  isLandscape : Bool
  isOnline : Bool
  websocketErrorCount : Int
  websocketStatus : String
  deriving DecidableEq, Repr

/-- The names bound inside `mapStateToProps`: its parameter and its two `const`s. -/
def functionScope : List String :=
  ["state", "websocket", "websocketStatus"]

/-- The names bound at module level: the imports and the two function declarations. -/
def moduleScope : List String :=
  ["bindActionCreators", "connect", "stopPeriodicStatusUpdates", "startPeriodicStatusUpdates",
   "initWebSocket", "closeWebSocket", "getCurrentChannelId", "isManuallyUnread", "connection",
   "markChannelViewedAndRead", "setChannelRetryFailed", "setCurrentUserStatusOffline", "logout",
   "getConnection", "isLandscape", "NetworkIndicator", "mapStateToProps", "mapDispatchToProps"]

/-- Reading an identifier that no enclosing scope binds: the value of the global of
that name when the host defines one, a `ReferenceError` otherwise. -/
def readUnbound (globals : String → Option String) (name : String) : Except JsError String :=
  match globals name with
  | some v => Except.ok v
  | none => Except.error (JsError.referenceError name)

/-- Function `mapStateToProps`. The properties of the returned object are evaluated
in source order. In `isManuallyUnread(state, currentChannelId)` the identifier
`currentChannelId` is a variable reference; the property key of the same name on the
line above binds nothing, and the name is in neither `functionScope` nor
`moduleScope`, so it is read as an unbound identifier. -/
def mapStateToProps {σ : Type} (env : Env σ) (globals : String → Option String) (state : σ) :
    Except JsError Props :=
  match env.websocket state with
  | none => Except.error (JsError.typeError "websocket is undefined")
  | some websocket =>
    let websocketStatus := websocket.status
    let currentChannelIdValue := env.getCurrentChannelId state
    match readUnbound globals "currentChannelId" with
    | Except.error e => Except.error e
    | Except.ok currentChannelId =>
      Except.ok
        { currentChannelId := currentChannelIdValue
          isManuallyUnread := env.isManuallyUnread state currentChannelId
          isLandscape := env.isLandscape state
          isOnline := env.getConnection state
          websocketErrorCount := websocket.error
          websocketStatus := websocketStatus }

/-- A host without a global named `currentChannelId`. -/
def noGlobals : String → Option String := fun _ => none

end NetworkIndicator

/-! ## Permalink connector (app/screens/permalink/index.js) -/

namespace Permalink

/-- A post, of which `channel_id` is read. -/
structure Post where
  id : String
  channel_id : String
  deriving DecidableEq, Repr

/-- A channel, of which `id`, `delete_at`, `display_name` and `team_id` are read. -/
structure Channel where
  id : String
  delete_at : Int
  display_name : String
  team_id : String
  deriving DecidableEq, Repr

/-- What `mapStateToProps` reads of its surroundings, for a store state of type `σ`,
a theme of type `θ` and channel memberships of type `μ`: the path
`state.entities.posts.currentFocusedPostId` and the imported selectors, whose
modules are not part of the sources at hand. `getPost` and `getChannel` return
`undefined` (`none`) for an unknown id; `getChannel` and `getPostIdsAroundPost` are
the instances made by `makeGetChannel()` and `makeGetPostIdsAroundPost()`. -/
structure Env (σ θ μ : Type) where
  currentFocusedPostId : σ → Option String
  getPost : σ → Option String → Option Post
  getChannel : σ → String → Option Channel
  getPostIdsAroundPost : σ → Option String → String → Nat → Nat → Option (List String)
  getCurrentTeamId : σ → String
  getCurrentUserId : σ → String
  getMyChannelMemberships : σ → μ
  getTheme : σ → θ
  isLandscape : σ → Bool

/-- The selector calls made while the props are computed. -/
inductive Call where
  | getPost (postId : Option String)
  | getChannel (id : String)
  | getPostIdsAroundPost (postId : Option String) (channelId : String)
      (postsBeforeCount postsAfterCount : Nat)
  | getCurrentTeamId
  | getCurrentUserId
  | getMyChannelMemberships
  | getTheme
  | isLandscape
  deriving DecidableEq, Repr

/-- The object returned by `mapStateToProps`; `postIds` is `undefined` (`none`)
when it was never assigned. -/
structure Props (θ μ : Type) where
  channelId : String
  channelIsArchived : Bool
  channelName : String
  channelTeamId : String
  currentTeamId : String
  currentUserId : String
  focusedPostId : Option String
  myMembers : μ
  postIds : Option (List String)
  theme : θ
  isLandscape : Bool

/-- The function returned by `makeMapStateToProps()`, together with the selector
calls it makes, in order. -/
def mapStateToProps {σ θ μ : Type} (env : Env σ θ μ) (state : σ) : Props θ μ × List Call :=
  let currentFocusedPostId := env.currentFocusedPostId state
  let post := env.getPost state currentFocusedPostId
  let r : Option Channel × Option (List String) × List Call :=
    match post with
    | some post =>
      (env.getChannel state post.channel_id,
       env.getPostIdsAroundPost state currentFocusedPostId post.channel_id 10 10,
       [Call.getChannel post.channel_id,
        Call.getPostIdsAroundPost currentFocusedPostId post.channel_id 10 10])
    | none => (none, none, [])
  let channel := r.1
  let postIds := r.2.1
  ({ channelId := match channel with
       | some c => c.id
       | none => ""
     channelIsArchived := match channel with
       | some c => decide (c.delete_at ≠ 0)
       | none => false
     channelName := match channel with
       | some c => c.display_name
       | none => ""
     channelTeamId := match channel with
       | some c => c.team_id
       | none => ""
     currentTeamId := env.getCurrentTeamId state
     currentUserId := env.getCurrentUserId state
     focusedPostId := currentFocusedPostId
     myMembers := env.getMyChannelMemberships state
     postIds := postIds
     theme := env.getTheme state
     isLandscape := env.isLandscape state },
   [Call.getPost currentFocusedPostId] ++ r.2.2 ++
     [Call.getCurrentTeamId, Call.getCurrentUserId, Call.getMyChannelMemberships,
      Call.getTheme, Call.isLandscape])

/-- A store used to exercise `mapStateToProps`: the state is the focused post id;
post `p1` is in the archived channel `c1`, post `p2` in a channel that is unknown. -/
def sampleEnv : Env (Option String) Unit Unit :=
  { currentFocusedPostId := fun state => state
    getPost := fun _ postId =>
      if postId = some "p1" then some { id := "p1", channel_id := "c1" }
      else if postId = some "p2" then some { id := "p2", channel_id := "c2" }
      else none
    getChannel := fun _ id =>
      if id = "c1" then
        some { id := "c1", delete_at := 1600000000000, display_name := "Town Square", team_id := "t1" }
      else none
    getPostIdsAroundPost := fun _ _ _ _ _ => some ["p0", "p1"]
    getCurrentTeamId := fun _ => "t1"
    getCurrentUserId := fun _ => "u1"
    getMyChannelMemberships := fun _ => ()
    getTheme := fun _ => ()
    isLandscape := fun _ => false }

end Permalink

namespace MoreMessages

/-! ## Auxiliary lemmas -/

theorem clearPending_timers (s : Component) (h : TimerOwned s) :
    (clearPending s).timers = [] := by
  obtain ⟨hall, _⟩ := h
  unfold clearPending
  cases hT : s.viewableItemsChangedTimer with
  | none =>
    simp only [truthyTimer, Bool.false_eq_true, if_false]
    apply List.eq_nil_iff_forall_not_mem.mpr
    intro t ht
    have := (hall t ht).1
    rw [hT] at this
    cases this
  | some n =>
    cases n with
    | zero =>
      simp only [truthyTimer, Bool.false_eq_true, if_false]
      apply List.eq_nil_iff_forall_not_mem.mpr
      intro t ht
      have h1 := hall t ht
      rw [hT] at h1
      have : t.id = 0 := by
        have := h1.1
        injection this with h2
        exact h2.symm
      exact h1.2 this
    | succ m =>
      simp only [truthyTimer, if_true, clearTimeout]
      apply List.eq_nil_iff_forall_not_mem.mpr
      intro t ht
      rw [List.mem_filter] at ht
      have h1 := (hall t ht.1).1
      rw [hT] at h1
      injection h1 with h2
      have := ht.2
      simp [h2] at this

theorem clearPending_fields (s : Component) :
    (clearPending s).visible = s.visible ∧
    (clearPending s).moreCount = s.moreCount ∧
    (clearPending s).prevInitialIndex = s.prevInitialIndex ∧
    (clearPending s).disableViewableItemsHandler = s.disableViewableItemsHandler ∧
    (clearPending s).viewableItemsChangedTimer = s.viewableItemsChangedTimer ∧
    (clearPending s).lastTimerId = s.lastTimerId := by
  unfold clearPending
  split
  · cases h : s.viewableItemsChangedTimer <;> simp [clearTimeout, h]
  · simp

theorem clearPending_eq (s : Component) :
    clearPending s = { s with timers := (clearPending s).timers } := by
  obtain ⟨mc, v, pi, d, tm, ts, l⟩ := s
  unfold clearPending
  split
  · cases tm <;> simp [clearTimeout]
  · rfl

theorem getElem?_length_sub_one (l : List Int) : l[l.length - 1]? = l.getLast? := by
  exact (List.getLast?_eq_getElem? l).symm

theorem lastAtLeast_iff (l : List Int) (i : Int) :
    lastAtLeast l i = true ↔ ∃ x, l.getLast? = some x ∧ i ≤ x := by
  unfold lastAtLeast
  rw [getElem?_length_sub_one]
  cases l.getLast? <;> simp

theorem firstIsZero_iff (l : List Int) : firstIsZero l = true ↔ l.head? = some 0 := by
  unfold firstIsZero
  cases l <;> simp

theorem hide_visible (s : Component) : (hide s).1.visible = false := by
  unfold hide
  split <;> simp_all

theorem hide_eq (s : Component) : (hide s).1 = { s with visible := false } := by
  obtain ⟨mc, v, pi, d, tm, ts, l⟩ := s
  unfold hide
  cases v <;> simp

theorem hide_effects (s : Component) :
    (hide s).2 = if s.visible then [Effect.spring HIDDEN_TOP] else [] := by
  unfold hide
  split <;> simp_all

/-- The fast path of `onViewableItemsChanged`, with the timer prologue folded. -/
theorem onViewableItemsChanged_fast (p : Props) (s : Component) (vs : List ViewToken)
    (hi : 0 < p.initialIndex) (hne : vs ≠ [])
    (hs : s.disableViewableItemsHandler = false)
    (hu : p.unreadCount ≤ p.initialIndex)
    (hlast : lastAtLeast (vs.map (fun item => item.index)) p.initialIndex = true) :
    onViewableItemsChanged p vs s =
      ({ clearPending s with visible := false, disableViewableItemsHandler := true },
        (if s.visible then [Effect.spring HIDDEN_TOP] else []) ++
        (if firstIsZero (vs.map (fun item => item.index)) then
          [Effect.scrollToIndex p.initialIndex] else [])) := by
  have hd : (clearPending s).disableViewableItemsHandler = false := by
    rw [(clearPending_fields s).2.2.2.1]; exact hs
  have hv : (clearPending s).visible = s.visible := (clearPending_fields s).1
  have hg : (decide (p.initialIndex ≤ 0) || decide (vs.length = 0)) = false := by
    simp [hne]; exact hi
  have hc : (decide (p.initialIndex ≥ p.unreadCount) &&
      lastAtLeast (vs.map (fun item => item.index)) p.initialIndex) = true := by
    simp [hlast, hu]
  unfold onViewableItemsChanged
  simp only [hg, hd, hc, Bool.false_eq_true, if_false, Bool.not_false, if_true]
  rw [hide_eq, hide_effects, hv]
  split <;> simp

theorem show_eq (p : Props) (s : Component) :
    (show_ p s).1 =
      { s with visible := s.visible || (decide (s.moreCount > 0) && !truthyString p.deepLinkURL) } := by
  obtain ⟨mc, v, pi, d, tm, ts, l⟩ := s
  unfold show_
  cases v <;> cases truthyString p.deepLinkURL <;> by_cases h : mc > 0 <;> simp [h]

theorem show_effects (p : Props) (s : Component) :
    (show_ p s).2 =
      if !s.visible && decide (s.moreCount > 0) && !truthyString p.deepLinkURL
      then [Effect.spring SHOWN_TOP] else [] := by
  unfold show_
  split <;> rfl

theorem sorted_mem_le_getLast (l : List Int) (h : l.Sorted (· ≤ ·)) (x : Int) (hx : x ∈ l)
    (hne : l ≠ []) : x ≤ l.getLast hne := by
  induction l with
  | nil => exact absurd rfl hne
  | cons a t ih =>
    by_cases ht : t = []
    · subst ht
      simp at hx
      simp [hx]
    · rw [List.getLast_cons ht]
      have hs := List.sorted_cons.mp h
      rcases List.mem_cons.mp hx with hxa | hxt
      · rw [hxa]
        exact hs.1 _ (List.getLast_mem ht)
      · exact ih hs.2 hxt ht

/-- The debounced path of `onViewableItemsChanged`: one timeout is queued after the
guarded clearing, and its handle is stored. -/
theorem onViewableItemsChanged_slow (p : Props) (s : Component) (vs : List ViewToken)
    (hi : 0 < p.initialIndex) (hne : vs ≠ [])
    (hs : s.disableViewableItemsHandler = false)
    (hc : (decide (p.initialIndex ≥ p.unreadCount) &&
      lastAtLeast (vs.map (fun item => item.index)) p.initialIndex) = false) :
    onViewableItemsChanged p vs s =
      ({ clearPending s with
          timers := (clearPending s).timers ++
            [{ id := s.lastTimerId + 1
               delay := if truthyTimer s.viewableItemsChangedTimer then 100 else 0
               viewableIndeces := vs.map (fun item => item.index) }]
          lastTimerId := s.lastTimerId + 1
          viewableItemsChangedTimer := some (s.lastTimerId + 1) }, []) := by
  have hf := clearPending_fields s
  have hd : (clearPending s).disableViewableItemsHandler = false := by
    rw [hf.2.2.2.1]; exact hs
  have hg : (decide (p.initialIndex ≤ 0) || decide (vs.length = 0)) = false := by
    simp [hne]; exact hi
  unfold onViewableItemsChanged
  simp only [hg, hd, hc, Bool.false_eq_true, if_false, Bool.not_false, if_true, setTimeout,
    hf.2.2.2.2.1, hf.2.2.2.2.2]

/-- In a suppressed state `onViewableItemsChanged` does nothing beyond the guarded clearing. -/
theorem onViewableItemsChanged_suppressed (p : Props) (s : Component) (vs : List ViewToken)
    (hs : s.disableViewableItemsHandler = true) :
    onViewableItemsChanged p vs s = (s, []) ∨ onViewableItemsChanged p vs s = (clearPending s, []) := by
  have hd : (clearPending s).disableViewableItemsHandler = true := by
    rw [(clearPending_fields s).2.2.2.1]; exact hs
  unfold onViewableItemsChanged
  split
  · exact Or.inl rfl
  · right
    simp only [hd, Bool.not_true, Bool.false_eq_true, if_false]

theorem clearPending_timers_nil (s : Component) (h : s.timers = []) :
    (clearPending s).timers = [] := by
  unfold clearPending
  split
  · unfold clearTimeout
    split <;> simp [h]
  · exact h

theorem onMoreMessagesPress_second (p q : Props) (s : Component)
    (hq : q.initialIndex = p.initialIndex) :
    onMoreMessagesPress q (onMoreMessagesPress p s).1 = ((onMoreMessagesPress p s).1, []) := by
  have : (onMoreMessagesPress p s).1.prevInitialIndex = some q.initialIndex := by
    unfold onMoreMessagesPress
    split
    · rename_i h; rw [hq]; exact h
    · rw [hq]
  unfold onMoreMessagesPress at this ⊢
  rw [if_pos this]

theorem intlMoreMessage_values (firstPage singular : Bool) (c : CountText) :
    (intlMoreMessage firstPage singular c).values = c := by
  cases firstPage <;> cases singular <;> rfl

theorem toString_sixty : toString (60 : Int) ++ "+" = "60+" := by decide

theorem timerOwned_of_nil (s : Component) (h : s.timers = []) : TimerOwned s := by
  unfold TimerOwned
  simp [h]

theorem timerOwned_congr (s t : Component) (ht : t.timers = s.timers)
    (hh : t.viewableItemsChangedTimer = s.viewableItemsChangedTimer) (h : TimerOwned s) :
    TimerOwned t := by
  unfold TimerOwned at h ⊢
  rw [ht, hh]
  exact h

theorem hide_frame (s : Component) :
    (hide s).1.timers = s.timers ∧
    (hide s).1.viewableItemsChangedTimer = s.viewableItemsChangedTimer ∧
    (hide s).1.moreCount = s.moreCount ∧
    (hide s).1.prevInitialIndex = s.prevInitialIndex ∧
    (hide s).1.disableViewableItemsHandler = s.disableViewableItemsHandler := by
  rw [hide_eq]
  exact ⟨rfl, rfl, rfl, rfl, rfl⟩

theorem show_frame (p : Props) (s : Component) :
    (show_ p s).1.timers = s.timers ∧
    (show_ p s).1.viewableItemsChangedTimer = s.viewableItemsChangedTimer ∧
    (show_ p s).1.moreCount = s.moreCount ∧
    (show_ p s).1.prevInitialIndex = s.prevInitialIndex ∧
    (show_ p s).1.disableViewableItemsHandler = s.disableViewableItemsHandler := by
  rw [show_eq]
  exact ⟨rfl, rfl, rfl, rfl, rfl⟩

theorem handler_frame (p : Props) (vs : List Int) (s : Component) :
    (viewableItemsChangedHandler p vs s).1.timers = s.timers ∧
    (viewableItemsChangedHandler p vs s).1.viewableItemsChangedTimer
      = s.viewableItemsChangedTimer ∧
    (viewableItemsChangedHandler p vs s).1.prevInitialIndex = s.prevInitialIndex ∧
    (viewableItemsChangedHandler p vs s).1.disableViewableItemsHandler
      = s.disableViewableItemsHandler := by
  unfold viewableItemsChangedHandler
  split
  · dsimp only
    split
    · rw [show_eq]
      exact ⟨rfl, rfl, rfl, rfl⟩
    · exact ⟨rfl, rfl, rfl, rfl⟩
  · exact ⟨rfl, rfl, rfl, rfl⟩

theorem reset_eq (s : Component) :
    reset s =
      ({ clearPending s with
          visible := false, prevInitialIndex := some 0, disableViewableItemsHandler := false },
        if s.visible then [Effect.spring HIDDEN_TOP] else []) := by
  unfold reset
  simp only [hide_eq, hide_effects, (clearPending_fields s).1]

theorem timerOwned_clearPending (s : Component) (h : TimerOwned s) :
    TimerOwned (clearPending s) :=
  timerOwned_of_nil _ (clearPending_timers s h)

theorem timerOwned_onViewableItemsChanged (p : Props) (vs : List ViewToken) (s : Component)
    (h : TimerOwned s) : TimerOwned (onViewableItemsChanged p vs s).1 := by
  have ht := clearPending_timers s h
  unfold onViewableItemsChanged
  split
  · exact h
  · dsimp only
    split
    · split
      · split
        · apply timerOwned_of_nil
          simp only [hide_eq]
          exact ht
        · apply timerOwned_of_nil
          simp only [hide_eq]
          exact ht
      · unfold TimerOwned setTimeout
        simp [ht]
    · exact timerOwned_of_nil _ ht

theorem timerOwned_fireTimer (p : Props) (k : Nat) (s : Component) (h : TimerOwned s) :
    TimerOwned (fireTimer p k s).1 := by
  unfold fireTimer
  split
  · have hf := handler_frame p (by assumption : Timeout).viewableIndeces
      { s with timers := s.timers.eraseIdx k }
    refine timerOwned_congr { s with timers := s.timers.eraseIdx k } _ hf.1 hf.2.1 ?_
    unfold TimerOwned at h ⊢
    refine ⟨fun t ht => h.1 t (List.mem_of_mem_eraseIdx ht), ?_⟩
    exact le_trans (List.length_eraseIdx_le _ _) h.2
  · exact h

theorem timerOwned_step (p : Props) (e : Event) (s : Component) (h : TimerOwned s) :
    TimerOwned (step p e s).1 := by
  cases e with
  | reset =>
    simp only [step, reset_eq]
    exact timerOwned_of_nil _ (clearPending_timers s h)
  | show_ => exact timerOwned_congr s _ (show_frame p s).1 (show_frame p s).2.1 h
  | hide => exact timerOwned_congr s _ (hide_frame s).1 (hide_frame s).2.1 h
  | cancel =>
    simp only [step, cancel]
    exact timerOwned_congr s _ (hide_frame s).1 (hide_frame s).2.1 h
  | onMoreMessagesPress =>
    simp only [step, onMoreMessagesPress]
    split
    · exact h
    · exact timerOwned_congr s _ rfl rfl h
  | onViewableItemsChanged vs => exact timerOwned_onViewableItemsChanged p vs s h
  | timerFired k => exact timerOwned_fireTimer p k s h

theorem timerOwned_run (trace : List (Props × Event)) (s : Component) (h : TimerOwned s) :
    TimerOwned (run trace s).1 := by
  induction trace generalizing s with
  | nil => exact h
  | cons pe rest ih =>
    obtain ⟨p, e⟩ := pe
    simp only [run]
    exact ih _ (timerOwned_step p e s h)

theorem timerOwned_mounted (n : Nat) : TimerOwned (mounted n) := by
  apply timerOwned_of_nil
  rfl

/-- In every state a mounted component can reach, the only timeout that can be
outstanding is the one whose handle the timer field holds. -/
theorem timerOwned_of_reachable (s : Component) (h : Reachable s) : TimerOwned s := by
  obtain ⟨n, trace, rfl⟩ := h
  exact timerOwned_run trace _ (timerOwned_mounted n)

theorem map_eraseIdx {α β : Type} (f : α → β) (l : List α) (k : Nat) :
    (l.eraseIdx k).map f = (l.map f).eraseIdx k := by
  induction l generalizing k with
  | nil => rfl
  | cons a t ih =>
    cases k with
    | zero => rfl
    | succ n => simp [List.eraseIdx, ih]

/-- All four outcomes of `onViewableItemsChanged`. -/
theorem onViewableItemsChanged_cases (p : Props) (vs : List ViewToken) (s : Component) :
    onViewableItemsChanged p vs s =
      if p.initialIndex ≤ 0 ∨ vs = [] then (s, [])
      else if s.disableViewableItemsHandler = true then (clearPending s, [])
      else if p.unreadCount ≤ p.initialIndex ∧
          lastAtLeast (vs.map (fun item => item.index)) p.initialIndex = true then
        ({ clearPending s with visible := false, disableViewableItemsHandler := true },
          (if s.visible then [Effect.spring HIDDEN_TOP] else []) ++
          (if firstIsZero (vs.map (fun item => item.index)) then
            [Effect.scrollToIndex p.initialIndex] else []))
      else
        ({ clearPending s with
            timers := (clearPending s).timers ++
              [{ id := s.lastTimerId + 1
                 delay := if truthyTimer s.viewableItemsChangedTimer then 100 else 0
                 viewableIndeces := vs.map (fun item => item.index) }]
            lastTimerId := s.lastTimerId + 1
            viewableItemsChangedTimer := some (s.lastTimerId + 1) }, []) := by
  by_cases hg : p.initialIndex ≤ 0 ∨ vs = []
  · rw [if_pos hg]
    unfold onViewableItemsChanged
    have : (decide (p.initialIndex ≤ 0) || decide (vs.length = 0)) = true := by
      rcases hg with h | h
      · simp [h]
      · simp [h]
    rw [if_pos this]
  · rw [if_neg hg]
    have hi : 0 < p.initialIndex := by
      by_contra h; exact hg (Or.inl (by omega))
    have hne : vs ≠ [] := fun h => hg (Or.inr h)
    by_cases hd : s.disableViewableItemsHandler = true
    · rw [if_pos hd]
      have hd2 : (clearPending s).disableViewableItemsHandler = true := by
        rw [(clearPending_fields s).2.2.2.1]; exact hd
      have hg2 : (decide (p.initialIndex ≤ 0) || decide (vs.length = 0)) = false := by
        simp [hne]; exact hi
      unfold onViewableItemsChanged
      simp only [hg2, hd2, Bool.false_eq_true, if_false, Bool.not_true]
    · rw [if_neg hd]
      have hd2 : s.disableViewableItemsHandler = false := by
        cases h : s.disableViewableItemsHandler
        · rfl
        · exact absurd h hd
      by_cases hc : p.unreadCount ≤ p.initialIndex ∧
          lastAtLeast (vs.map (fun item => item.index)) p.initialIndex = true
      · rw [if_pos hc]
        exact onViewableItemsChanged_fast p s vs hi hne hd2 hc.1 hc.2
      · rw [if_neg hc]
        apply onViewableItemsChanged_slow p s vs hi hne hd2
        rw [← Bool.not_eq_true]
        intro h
        apply hc
        simpa using h

/-- All three outcomes of `viewableItemsChangedHandler`. -/
theorem handler_cases (p : Props) (vs : List Int) (s : Component) :
    viewableItemsChangedHandler p vs s =
      if p.initialIndex ∉ vs ∧ 0 < p.unreadCount - vs.getLast?.getD 0 then
        show_ p { s with moreCount := p.unreadCount - vs.getLast?.getD 0 }
      else (s, []) := by
  unfold viewableItemsChangedHandler
  by_cases hm : p.initialIndex ∈ vs
  · simp [hm]
  · by_cases hpos : 0 < p.unreadCount - vs.getLast?.getD 0
    · simp [hm, hpos]
    · simp [hm, hpos]

theorem agree_clearPending (s t : Component) (h : Agree s t)
    (hs : TimerOwned s) (ht : TimerOwned t) : Agree (clearPending s) (clearPending t) := by
  have fs := clearPending_fields s
  have ft := clearPending_fields t
  unfold Agree at h ⊢
  rw [fs.1, ft.1, fs.2.1, ft.2.1, fs.2.2.1, ft.2.2.1, fs.2.2.2.1, ft.2.2.2.1,
    clearPending_timers s hs, clearPending_timers t ht]
  exact ⟨h.1, h.2.1, h.2.2.1, rfl, h.2.2.2.2⟩

theorem agree_onViewableItemsChanged (p : Props) (vs : List ViewToken) (s t : Component)
    (h : Agree s t) (hs : TimerOwned s) (ht : TimerOwned t) :
    (onViewableItemsChanged p vs s).2 = (onViewableItemsChanged p vs t).2 ∧
    Agree (onViewableItemsChanged p vs s).1 (onViewableItemsChanged p vs t).1 := by
  have hc := agree_clearPending s t h hs ht
  have cs := clearPending_timers s hs
  have ct := clearPending_timers t ht
  rw [onViewableItemsChanged_cases p vs s, onViewableItemsChanged_cases p vs t]
  by_cases hg : p.initialIndex ≤ 0 ∨ vs = []
  · rw [if_pos hg, if_pos hg]
    exact ⟨rfl, h⟩
  · rw [if_neg hg, if_neg hg]
    by_cases hd : s.disableViewableItemsHandler = true
    · have hdt : t.disableViewableItemsHandler = true := by rw [← h.2.2.1]; exact hd
      rw [if_pos hd, if_pos hdt]
      exact ⟨rfl, hc⟩
    · have hdt : ¬ t.disableViewableItemsHandler = true := by rw [← h.2.2.1]; exact hd
      rw [if_neg hd, if_neg hdt]
      by_cases hf : p.unreadCount ≤ p.initialIndex ∧
          lastAtLeast (vs.map (fun item => item.index)) p.initialIndex = true
      · rw [if_pos hf, if_pos hf]
        refine ⟨by simp only [h.1], ?_⟩
        unfold Agree at hc ⊢
        exact ⟨rfl, hc.2.1, rfl, hc.2.2.2.1, fun hv => absurd hv (by simp)⟩
      · rw [if_neg hf, if_neg hf]
        refine ⟨rfl, ?_⟩
        unfold Agree at hc ⊢
        refine ⟨hc.1, hc.2.1, hc.2.2.1, ?_, hc.2.2.2.2⟩
        simp [cs, ct]

theorem agree_fireTimer (p : Props) (k : Nat) (s t : Component) (h : Agree s t) :
    (fireTimer p k s).2 = (fireTimer p k t).2 ∧
    Agree (fireTimer p k s).1 (fireTimer p k t).1 := by
  have hk : (s.timers[k]?).map (fun x => x.viewableIndeces)
      = (t.timers[k]?).map (fun x => x.viewableIndeces) := by
    rw [← List.getElem?_map, ← List.getElem?_map, h.2.2.2.1]
  have he : Agree { s with timers := s.timers.eraseIdx k } { t with timers := t.timers.eraseIdx k } := by
    unfold Agree at h ⊢
    refine ⟨h.1, h.2.1, h.2.2.1, ?_, h.2.2.2.2⟩
    simp only [map_eraseIdx, h.2.2.2.1]
  unfold fireTimer
  cases hs : s.timers[k]? with
  | none =>
    rw [hs] at hk
    cases ht : t.timers[k]? with
    | none => exact ⟨rfl, h⟩
    | some b => rw [ht] at hk; simp at hk
  | some a =>
    rw [hs] at hk
    cases ht : t.timers[k]? with
    | none => rw [ht] at hk; simp at hk
    | some b =>
      rw [ht] at hk
      have hab : a.viewableIndeces = b.viewableIndeces := by simpa using hk
      simp only [hab, handler_cases]
      split
      · have hv : s.visible = t.visible := h.1
        rw [show_eq, show_eq, show_effects, show_effects]
        unfold Agree at he ⊢
        refine ⟨by simp only [hv], ?_, he.2.1, he.2.2.1, he.2.2.2.1, fun _ => rfl⟩
        simp only [hv]
      · exact ⟨rfl, he⟩

theorem agree_step (p : Props) (e : Event) (s t : Component) (h : Agree s t)
    (hs : TimerOwned s) (ht : TimerOwned t) (he : e ≠ Event.show_) :
    (step p e s).2 = (step p e t).2 ∧ Agree (step p e s).1 (step p e t).1 := by
  cases e with
  | reset =>
    simp only [step, reset_eq]
    have hc := agree_clearPending s t h hs ht
    unfold Agree at hc ⊢
    exact ⟨by simp only [h.1], rfl, rfl, rfl, hc.2.2.2.1, fun hv => absurd hv (by simp)⟩
  | show_ => exact absurd rfl he
  | hide =>
    simp only [step, hide_eq, hide_effects]
    unfold Agree at h ⊢
    exact ⟨by simp only [h.1], rfl, h.2.1, h.2.2.1, h.2.2.2.1, fun hv => absurd hv (by simp)⟩
  | cancel =>
    simp only [step, cancel, hide_eq, hide_effects]
    unfold Agree at h ⊢
    exact ⟨by simp only [h.1], rfl, h.2.1, rfl, h.2.2.2.1, fun hv => absurd hv (by simp)⟩
  | onMoreMessagesPress =>
    simp only [step, onMoreMessagesPress]
    rw [← h.2.1]
    split
    · exact ⟨rfl, h⟩
    · unfold Agree at h ⊢
      exact ⟨rfl, h.1, rfl, h.2.2.1, h.2.2.2.1, h.2.2.2.2⟩
  | onViewableItemsChanged vs => exact agree_onViewableItemsChanged p vs s t h hs ht
  | timerFired k => exact agree_fireTimer p k s t h

theorem agree_run (trace : List (Props × Event)) (s t : Component) (h : Agree s t)
    (hs : TimerOwned s) (ht : TimerOwned t) (hno : ∀ pe ∈ trace, pe.2 ≠ Event.show_) :
    (run trace s).2 = (run trace t).2 ∧ Agree (run trace s).1 (run trace t).1 := by
  induction trace generalizing s t with
  | nil => exact ⟨rfl, h⟩
  | cons pe rest ih =>
    obtain ⟨p, e⟩ := pe
    have h1 := agree_step p e s t h hs ht (hno (p, e) (List.mem_cons_self _ _))
    have h2 := ih _ _ h1.2 (timerOwned_step p e s hs) (timerOwned_step p e t ht)
      (fun pe hpe => hno pe (List.mem_cons_of_mem _ hpe))
    simp only [run]
    exact ⟨by rw [h1.1, h2.1], h2.2⟩

theorem countInv_frame (s t : Component) (hm : t.moreCount = s.moreCount)
    (hv : t.visible = true → s.visible = true) (h : CountInv s) : CountInv t := by
  unfold CountInv at h ⊢
  rw [hm]
  exact ⟨h.1, fun hvt => h.2 (hv hvt)⟩

theorem countInv_show (p : Props) (s : Component) (h : CountInv s) : CountInv (show_ p s).1 := by
  rw [show_eq]
  unfold CountInv at h ⊢
  refine ⟨h.1, ?_⟩
  intro hv
  simp only [Bool.or_eq_true, Bool.and_eq_true, decide_eq_true_eq] at hv
  rcases hv with hv | hv
  · exact h.2 hv
  · exact hv.1

theorem countInv_handler (p : Props) (vs : List Int) (s : Component) (h : CountInv s) :
    CountInv (viewableItemsChangedHandler p vs s).1 := by
  rw [handler_cases]
  split
  · rename_i hc
    rw [show_eq]
    unfold CountInv
    exact ⟨le_of_lt hc.2, fun _ => hc.2⟩
  · exact h

theorem countInv_onViewableItemsChanged (p : Props) (vs : List ViewToken) (s : Component)
    (h : CountInv s) : CountInv (onViewableItemsChanged p vs s).1 := by
  have hf := clearPending_fields s
  have hc : CountInv (clearPending s) :=
    countInv_frame s _ hf.2.1 (fun hv => by rw [← hf.1]; exact hv) h
  rw [onViewableItemsChanged_cases]
  split
  · exact h
  · split
    · exact hc
    · split
      · exact countInv_frame (clearPending s) _ rfl (fun hv => absurd hv (by simp)) hc
      · exact countInv_frame (clearPending s) _ rfl (fun hv => hv) hc

theorem countInv_step (p : Props) (e : Event) (s : Component) (h : CountInv s) :
    CountInv (step p e s).1 := by
  cases e with
  | reset =>
    simp only [step, reset_eq]
    exact countInv_frame s _ (clearPending_fields s).2.1 (fun hv => absurd hv (by simp)) h
  | show_ => exact countInv_show p s h
  | hide =>
    simp only [step, hide_eq]
    exact countInv_frame s _ rfl (fun hv => absurd hv (by simp)) h
  | cancel =>
    simp only [step, cancel, hide_eq]
    exact countInv_frame s _ rfl (fun hv => absurd hv (by simp)) h
  | onMoreMessagesPress =>
    simp only [step, onMoreMessagesPress]
    split
    · exact h
    · exact countInv_frame s _ rfl (fun hv => hv) h
  | onViewableItemsChanged vs => exact countInv_onViewableItemsChanged p vs s h
  | timerFired k =>
    simp only [step, fireTimer]
    split
    · exact countInv_handler p _ _ (countInv_frame s _ rfl (fun hv => hv) h)
    · exact h

theorem countInv_run (trace : List (Props × Event)) (s : Component) (h : CountInv s) :
    CountInv (run trace s).1 := by
  induction trace generalizing s with
  | nil => exact h
  | cons pe rest ih =>
    obtain ⟨p, e⟩ := pe
    simp only [run]
    exact ih _ (countInv_step p e s h)

theorem countInv_mounted (n : Nat) : CountInv (mounted n) := by
  unfold CountInv
  have hv : (mounted n).visible = false := rfl
  have hm : (mounted n).moreCount = 0 := rfl
  rw [hv, hm]
  exact ⟨le_refl _, fun h => absurd h (by simp)⟩

theorem handler_visible (p : Props) (vs : List Int) (s : Component)
    (hd : truthyString p.deepLinkURL = true) :
    (viewableItemsChangedHandler p vs s).1.visible = s.visible := by
  rw [handler_cases]
  split
  · rw [show_eq]
    simp [hd]
  · rfl

theorem onViewableItemsChanged_visible (p : Props) (vs : List ViewToken) (s : Component)
    (hv : (onViewableItemsChanged p vs s).1.visible = true) : s.visible = true := by
  have hf := clearPending_fields s
  rw [onViewableItemsChanged_cases] at hv
  split at hv
  · exact hv
  · split at hv
    · rw [← hf.1]; exact hv
    · split at hv
      · exact absurd hv (by simp)
      · rw [← hf.1]; exact hv

/-- Under an active deep link no event makes a hidden button visible. -/
theorem step_visible_under_deepLink (p : Props) (e : Event) (s : Component)
    (hd : truthyString p.deepLinkURL = true) (hv : (step p e s).1.visible = true) :
    s.visible = true := by
  cases e with
  | reset =>
    simp only [step, reset_eq] at hv
    exact absurd hv (by simp)
  | show_ =>
    simp only [step, show_eq, hd] at hv
    simpa using hv
  | hide =>
    simp only [step, hide_eq] at hv
    exact absurd hv (by simp)
  | cancel =>
    simp only [step, cancel, hide_eq] at hv
    exact absurd hv (by simp)
  | onMoreMessagesPress =>
    simp only [step, onMoreMessagesPress] at hv
    split at hv
    · exact hv
    · exact hv
  | onViewableItemsChanged vs => exact onViewableItemsChanged_visible p vs s hv
  | timerFired k =>
    simp only [step, fireTimer] at hv
    split at hv
    · rw [handler_visible p _ _ hd] at hv
      exact hv
    · exact hv

theorem run_hidden_under_deepLink (trace : List (Props × Event)) (s : Component)
    (hd : ∀ pe ∈ trace, truthyString pe.1.deepLinkURL = true) (hs : s.visible = false) :
    (run trace s).1.visible = false := by
  induction trace generalizing s with
  | nil => exact hs
  | cons pe rest ih =>
    obtain ⟨p, e⟩ := pe
    simp only [run]
    apply ih _ (fun pe hpe => hd pe (List.mem_cons_of_mem _ hpe))
    cases h : (step p e s).1.visible
    · rfl
    · have := step_visible_under_deepLink p e s (hd (p, e) (List.mem_cons_self _ _)) h
      rw [hs] at this
      exact absurd this (by simp)

theorem handler_timer (p : Props) (vs : List Int) (s : Component) :
    (viewableItemsChangedHandler p vs s).1.viewableItemsChangedTimer
      = s.viewableItemsChangedTimer := (handler_frame p vs s).2.1

/-- No event makes the timer field falsy again once it holds a handle. -/
theorem step_keeps_handle (p : Props) (e : Event) (s : Component)
    (h : truthyTimer s.viewableItemsChangedTimer = true) :
    truthyTimer (step p e s).1.viewableItemsChangedTimer = true := by
  have hf := clearPending_fields s
  cases e with
  | reset =>
    simp only [step, reset_eq]
    rw [hf.2.2.2.2.1]; exact h
  | show_ =>
    simp only [step]
    rw [(show_frame p s).2.1]; exact h
  | hide =>
    simp only [step]
    rw [(hide_frame s).2.1]; exact h
  | cancel =>
    simp only [step, cancel]
    rw [(hide_frame s).2.1]; exact h
  | onMoreMessagesPress =>
    simp only [step, onMoreMessagesPress]
    split
    · exact h
    · exact h
  | onViewableItemsChanged vs =>
    simp only [step]
    rw [onViewableItemsChanged_cases]
    split
    · exact h
    · split
      · rw [hf.2.2.2.2.1]; exact h
      · split
        · simp only []
          rw [hf.2.2.2.2.1]; exact h
        · rfl
  | timerFired k =>
    simp only [step, fireTimer]
    split
    · rw [handler_timer]; exact h
    · exact h

theorem run_keeps_handle (trace : List (Props × Event)) (s : Component)
    (h : truthyTimer s.viewableItemsChangedTimer = true) :
    truthyTimer (run trace s).1.viewableItemsChangedTimer = true := by
  induction trace generalizing s with
  | nil => exact h
  | cons pe rest ih =>
    obtain ⟨p, e⟩ := pe
    simp only [run]
    exact ih _ (step_keeps_handle p e s h)

/-- The debounced path under the timer invariant: exactly the new timeout is outstanding. -/
theorem onViewableItemsChanged_schedules (p : Props) (s : Component) (vs : List ViewToken)
    (hown : TimerOwned s)
    (hs : s.disableViewableItemsHandler = false)
    (hi : 0 < p.initialIndex) (hne : vs ≠ [])
    (hc : ¬ (p.unreadCount ≤ p.initialIndex ∧
      lastAtLeast (vs.map (fun item => item.index)) p.initialIndex = true)) :
    onViewableItemsChanged p vs s =
      ({ clearPending s with
          timers :=
            [{ id := s.lastTimerId + 1
               delay := if truthyTimer s.viewableItemsChangedTimer then 100 else 0
               viewableIndeces := vs.map (fun item => item.index) }]
          lastTimerId := s.lastTimerId + 1
          viewableItemsChangedTimer := some (s.lastTimerId + 1) }, []) := by
  have hc2 : (decide (p.initialIndex ≥ p.unreadCount) &&
      lastAtLeast (vs.map (fun item => item.index)) p.initialIndex) = false := by
    rw [← Bool.not_eq_true]
    intro h
    apply hc
    simpa using h
  rw [onViewableItemsChanged_slow p s vs hi hne hs hc2, clearPending_timers s hown]
  rfl

theorem dueOf_head (id d : Nat) (rest : List (Nat × Nat)) :
    dueOf ((id, d) :: rest) id = some d := by
  simp [dueOf]

theorem advance_empty (p : Props) (t : Nat) (c : Clocked) (h : c.component.timers = []) :
    advance p t c = (c, []) := by
  unfold advance
  rw [h]
  rfl

theorem advance_single_notdue (p : Props) (t : Nat) (c : Clocked) (tm : Timeout) (d : Nat)
    (ht : c.component.timers = [tm]) (hd : dueOf c.due tm.id = some d) (hnd : ¬ d < t) :
    advance p t c = (c, []) := by
  unfold advance
  rw [ht]
  simp [fireDue, firstDue, ht, hd, hnd]

theorem advance_single_due (p : Props) (t : Nat) (c : Clocked) (tm : Timeout) (d : Nat)
    (ht : c.component.timers = [tm]) (hd : dueOf c.due tm.id = some d) (hlt : d < t) :
    advance p t c =
      ({ c with
          component :=
            (viewableItemsChangedHandler p tm.viewableIndeces { c.component with timers := [] }).1
          evaluations := c.evaluations ++ [tm.viewableIndeces] },
        (viewableItemsChangedHandler p tm.viewableIndeces { c.component with timers := [] }).2) := by
  unfold advance
  rw [ht]
  simp [fireDue, firstDue, ht, hd, hlt, fireTimer]

/-- What a scheduling call leaves behind. -/
theorem schedules_facts (p : Props) (s : Component) (vs : List ViewToken)
    (hown : TimerOwned s)
    (hs : s.disableViewableItemsHandler = false)
    (hi : 0 < p.initialIndex) (hne : vs ≠ [])
    (hc : ¬ (p.unreadCount ≤ p.initialIndex ∧
      lastAtLeast (vs.map (fun item => item.index)) p.initialIndex = true)) :
    (onViewableItemsChanged p vs s).2 = [] ∧
    (onViewableItemsChanged p vs s).1.timers =
      [{ id := s.lastTimerId + 1
         delay := if truthyTimer s.viewableItemsChangedTimer then 100 else 0
         viewableIndeces := vs.map (fun item => item.index) }] ∧
    (onViewableItemsChanged p vs s).1.disableViewableItemsHandler = false ∧
    (onViewableItemsChanged p vs s).1.viewableItemsChangedTimer = some (s.lastTimerId + 1) ∧
    (onViewableItemsChanged p vs s).1.lastTimerId = s.lastTimerId + 1 := by
  rw [onViewableItemsChanged_schedules p s vs hown hs hi hne hc]
  exact ⟨rfl, rfl, (clearPending_fields s).2.2.2.1.trans hs, rfl, rfl⟩

theorem handleAt_schedules (t : Nat) (p : Props) (c : Clocked) (vs : List ViewToken)
    (hown : TimerOwned c.component)
    (hs : c.component.disableViewableItemsHandler = false)
    (hi : 0 < p.initialIndex) (hne : vs ≠ [])
    (hc : ¬ (p.unreadCount ≤ p.initialIndex ∧
      lastAtLeast (vs.map (fun item => item.index)) p.initialIndex = true)) :
    handleAt t p (Event.onViewableItemsChanged vs) c =
      ({ component := (onViewableItemsChanged p vs c.component).1
         due := (c.component.lastTimerId + 1,
            t + (if truthyTimer c.component.viewableItemsChangedTimer then 100 else 0)) :: c.due
         evaluations := c.evaluations }, []) := by
  have hf := schedules_facts p c.component vs hown hs hi hne hc
  unfold handleAt
  simp only [step, hf.1, hf.2.1]
  simp

theorem handler_lastTimerId (p : Props) (vs : List Int) (s : Component) :
    (viewableItemsChangedHandler p vs s).1.lastTimerId = s.lastTimerId := by
  rw [handler_cases]
  split
  · rw [show_eq]
  · rfl

/-- A scheduling call handled at time `t2` on a component whose timer field holds a
handle, and the wait that follows: its evaluation is the only one that runs. -/
theorem call_then_wait (t2 t3 : Nat) (p2 q : Props) (vs2 : List ViewToken) (a : Clocked)
    (hown : TimerOwned a.component)
    (hs : a.component.disableViewableItemsHandler = false)
    (hh : truthyTimer a.component.viewableItemsChangedTimer = true)
    (hi2 : 0 < p2.initialIndex) (hne2 : vs2 ≠ [])
    (hc2 : ¬ (p2.unreadCount ≤ p2.initialIndex ∧
      lastAtLeast (vs2.map (fun item => item.index)) p2.initialIndex = true))
    (h3 : t2 + 100 < t3) :
    (handleAt t2 p2 (Event.onViewableItemsChanged vs2) a).1.component.timers.length ≤ 1 ∧
    (advance q t3 (handleAt t2 p2 (Event.onViewableItemsChanged vs2) a).1).1.evaluations
      = a.evaluations ++ [vs2.map (fun item => item.index)] ∧
    (advance q t3
      (handleAt t2 p2 (Event.onViewableItemsChanged vs2) a).1).1.component.timers = [] := by
  have hf := schedules_facts p2 a.component vs2 hown hs hi2 hne2 hc2
  have hdel : (handleAt t2 p2 (Event.onViewableItemsChanged vs2) a).1 =
      { component := (onViewableItemsChanged p2 vs2 a.component).1
        due := (a.component.lastTimerId + 1, t2 + 100) :: a.due
        evaluations := a.evaluations } := by
    simp only [handleAt_schedules t2 p2 a vs2 hown hs hi2 hne2 hc2, hh, if_true]
  have ht2 := hf.2.1
  rw [hh] at ht2
  simp only [if_true] at ht2
  have hadv := advance_single_due q t3
    { component := (onViewableItemsChanged p2 vs2 a.component).1
      due := (a.component.lastTimerId + 1, t2 + 100) :: a.due
      evaluations := a.evaluations }
    { id := a.component.lastTimerId + 1, delay := 100,
      viewableIndeces := vs2.map (fun item => item.index) }
    (t2 + 100) ht2 (dueOf_head _ _ _) h3
  refine ⟨?_, ?_, ?_⟩
  · rw [hdel]
    simp only [ht2, List.length_singleton, le_refl]
  · rw [hdel, hadv]
  · rw [hdel, hadv]
    exact (handler_frame _ _ _).1

theorem fireTimer_timers (p : Props) (k : Nat) (s : Component) :
    (fireTimer p k s).1.timers.length ≤ s.timers.length - (if k < s.timers.length then 1 else 0) := by
  unfold fireTimer
  cases h : s.timers[k]? with
  | none =>
    have : ¬ k < s.timers.length := by
      intro hk
      rw [List.getElem?_eq_getElem hk] at h
      cases h
    simp [this]
  | some tm =>
    have hk : k < s.timers.length := by
      by_contra hk
      rw [List.getElem?_eq_none (Nat.le_of_not_lt hk)] at h
      cases h
    simp only [hk, if_true]
    rw [(handler_frame _ _ _).1]
    simp only [List.length_eraseIdx, hk, if_true, le_refl]

/-- The fuel given to `fireDue` by `advance` is enough: afterwards no outstanding
timeout is due before `t`. -/
theorem fireDue_complete (p : Props) (t : Nat) (fuel : Nat) (c : Clocked)
    (h : c.component.timers.length ≤ fuel) : firstDue (fireDue p t fuel c).1 t = none := by
  induction fuel generalizing c with
  | zero =>
    have hnil : c.component.timers = [] := List.length_eq_zero.mp (Nat.le_zero.mp h)
    simp [fireDue, firstDue, hnil]
  | succ n ih =>
    unfold fireDue
    cases hfd : firstDue c t with
    | none => simpa using hfd
    | some k =>
      have hk : k < c.component.timers.length := by
        unfold firstDue at hfd
        rw [List.findIdx?_eq_some_iff_getElem] at hfd
        exact hfd.1
      simp only [List.getElem?_eq_getElem hk]
      apply ih
      have := fireTimer_timers p k c.component
      simp only [hk, if_true] at this
      simp only
      omega

theorem advance_complete (p : Props) (t : Nat) (c : Clocked) :
    firstDue (advance p t c).1 t = none :=
  fireDue_complete p t _ c (le_refl _)

/-! ## Claims -/

/-- Claim C1. Fast-path hide of `onViewableItemsChanged`: in a state that is not
suppressed, with `initialIndex > 0`, `initialIndex >= unreadCount` and a non-empty
sequence of visible items whose last index is at least `initialIndex`, the call
leaves `visible = false` and `disableViewableItemsHandler = true`, leaves no
timeout outstanding (the pending one is cleared, none is scheduled, and the stored
handle and the count are untouched), and calls `scrollToIndex(initialIndex)` once
when the first visible index is `0` and not at all otherwise. No ordering of the
indices is needed. -/
theorem onViewableItemsChanged_fast_path (p : Props) (s : Component) (vs : List ViewToken)
    (hown : TimerOwned s)
    (hs : s.disableViewableItemsHandler = false)
    (hi : 0 < p.initialIndex)
    (hu : p.unreadCount ≤ p.initialIndex)
    (hne : vs.map (fun item => item.index) ≠ [])
    (hlast : p.initialIndex ≤ (vs.map (fun item => item.index)).getLast hne) :
    (onViewableItemsChanged p vs s).1.visible = false ∧
    (onViewableItemsChanged p vs s).1.disableViewableItemsHandler = true ∧
    (onViewableItemsChanged p vs s).1.timers = [] ∧
    (onViewableItemsChanged p vs s).1.viewableItemsChangedTimer = s.viewableItemsChangedTimer ∧
    (onViewableItemsChanged p vs s).1.moreCount = s.moreCount ∧
    (onViewableItemsChanged p vs s).1.prevInitialIndex = s.prevInitialIndex ∧
    scrollCalls (onViewableItemsChanged p vs s).2 =
      (if (vs.map (fun item => item.index)).head? = some 0 then [p.initialIndex] else []) ∧
    springCalls (onViewableItemsChanged p vs s).2 =
      (if s.visible then [HIDDEN_TOP] else []) := by
  have hne2 : vs ≠ [] := by
    intro h; apply hne; simp [h]
  have hl : lastAtLeast (vs.map (fun item => item.index)) p.initialIndex = true := by
    rw [lastAtLeast_iff]
    exact ⟨_, List.getLast?_eq_getLast _ hne, hlast⟩
  rw [onViewableItemsChanged_fast p s vs hi hne2 hs hu hl]
  have hf := clearPending_fields s
  refine ⟨rfl, rfl, clearPending_timers s hown, hf.2.2.2.2.1, hf.2.1, hf.2.2.1, ?_, ?_⟩
  · by_cases h0 : (vs.map (fun item => item.index)).head? = some 0
    · have : firstIsZero (vs.map (fun item => item.index)) = true := (firstIsZero_iff _).mpr h0
      rw [this, if_pos h0]
      cases s.visible <;> simp [scrollCalls]
    · have : firstIsZero (vs.map (fun item => item.index)) = false := by
        rw [← Bool.not_eq_true, firstIsZero_iff]; exact h0
      rw [this, if_neg h0]
      cases s.visible <;> simp [scrollCalls]
  · cases s.visible <;> cases firstIsZero (vs.map (fun item => item.index)) <;>
      simp [springCalls]

/-- Witness of C1: `initialIndex = 5`, `unreadCount = 5`, indices `0..6` on a newly
mounted component. -/
theorem onViewableItemsChanged_fast_path_witness :
    (onViewableItemsChanged ⟨"c", 5, 5, none⟩ (items [0, 1, 2, 3, 4, 5, 6]) (mounted 0)).1.disableViewableItemsHandler
      = true ∧
    scrollCalls (onViewableItemsChanged ⟨"c", 5, 5, none⟩ (items [0, 1, 2, 3, 4, 5, 6]) (mounted 0)).2
      = [5] := by
  have h := onViewableItemsChanged_fast_path ⟨"c", 5, 5, none⟩ (mounted 0)
    (items [0, 1, 2, 3, 4, 5, 6]) (by decide) (by decide) (by decide) (by decide)
    (by decide) (by decide)
  exact ⟨h.2.1, h.2.2.2.2.2.2.1⟩

/-- Claim C2. Evaluation (`viewableItemsChangedHandler`): when `initialIndex` is not
among the visible indices, with `r` the last index (`0` for the empty sequence), a
positive `unreadCount - r` is stored in `moreCount` and `show` is then applied, so
the button becomes visible when it was not and no deep link is active; when
`unreadCount - r <= 0`, or when `initialIndex` is among the indices, the state is
unchanged and nothing is started. -/
theorem viewableItemsChangedHandler_contract (p : Props) (s : Component) (vs : List Int) :
    (p.initialIndex ∉ vs →
      (0 < p.unreadCount - (if h : vs = [] then 0 else vs.getLast h) →
        viewableItemsChangedHandler p vs s =
          show_ p { s with moreCount := p.unreadCount - (if h : vs = [] then 0 else vs.getLast h) } ∧
        (viewableItemsChangedHandler p vs s).1.moreCount =
          p.unreadCount - (if h : vs = [] then 0 else vs.getLast h) ∧
        (s.visible = false → truthyString p.deepLinkURL = false →
          (viewableItemsChangedHandler p vs s).1.visible = true ∧
          (viewableItemsChangedHandler p vs s).2 = [Effect.spring SHOWN_TOP])) ∧
      (p.unreadCount - (if h : vs = [] then 0 else vs.getLast h) ≤ 0 →
        viewableItemsChangedHandler p vs s = (s, []))) ∧
    (p.initialIndex ∈ vs → viewableItemsChangedHandler p vs s = (s, [])) := by
  have hr : vs.getLast?.getD 0 = (if h : vs = [] then 0 else vs.getLast h) := by
    by_cases h : vs = []
    · simp [h]
    · simp [h, List.getLast?_eq_getLast _ h]
  refine ⟨fun hn => ⟨fun hpos => ?_, fun hle => ?_⟩, fun hm => ?_⟩
  · have e : viewableItemsChangedHandler p vs s =
        show_ p { s with moreCount := p.unreadCount - (if h : vs = [] then 0 else vs.getLast h) } := by
      unfold viewableItemsChangedHandler
      simp only [hr]
      simp [hn, hpos]
    refine ⟨e, ?_, ?_⟩
    · rw [e, show_eq]
    · intro hv hd
      rw [e, show_eq, show_effects]
      simp [hv, hd, hpos]
  · unfold viewableItemsChangedHandler
    simp only [hr]
    simp [hn]
    intro h; omega
  · unfold viewableItemsChangedHandler
    simp [hm]

/-- Witness of C2: `initialIndex = 5`, `unreadCount = 10`, indices `6..9` on a newly
mounted component give `moreCount = 1` and the button shown. -/
theorem viewableItemsChangedHandler_contract_witness :
    (viewableItemsChangedHandler ⟨"c", 10, 5, none⟩ [6, 7, 8, 9] (mounted 0)).1.moreCount = 1 ∧
    (viewableItemsChangedHandler ⟨"c", 10, 5, none⟩ [6, 7, 8, 9] (mounted 0)).1.visible = true ∧
    (moreMessage (viewableItemsChangedHandler ⟨"c", 10, 5, none⟩ [6, 7, 8, 9] (mounted 0)).1).id
      = "mobile.more_messages.firstPageSingular" := by
  have h := ((viewableItemsChangedHandler_contract ⟨"c", 10, 5, none⟩ (mounted 0)
    [6, 7, 8, 9]).1 (by decide)).1 (by decide)
  refine ⟨?_, (h.2.2 (by decide) (by decide)).1, by decide⟩
  rw [h.2.1]; decide

/-- Claim C3 fails on the code. The comment above the test reads "Hide More
Messages button when New Messages line is viewable", but the test also requires
`initialIndex >= unreadCount`: with `initialIndex = 5 < unreadCount = 10` and the
button shown (after the indices `6, 7` were evaluated), the ascending indices
`4, 5, 6` contain `initialIndex`, yet after `onViewableItemsChanged` and after the
evaluation it schedules has run the button is still visible and the handler is not
suppressed. -/
theorem marker_viewable_counterexample :
    (run [((⟨"c", 10, 5, none⟩ : Props), Event.onViewableItemsChanged (items [6, 7])),
          (⟨"c", 10, 5, none⟩, Event.timerFired 0)] (mounted 0)).1
      = { moreCount := 3, visible := true, prevInitialIndex := some 0,
          disableViewableItemsHandler := false, viewableItemsChangedTimer := some 1,
          timers := [], lastTimerId := 1 } ∧
    ((items [4, 5, 6]).map (fun item => item.index)).Sorted (· ≤ ·) ∧
    (5 : Int) ∈ (items [4, 5, 6]).map (fun item => item.index) ∧
    (run [((⟨"c", 10, 5, none⟩ : Props), Event.onViewableItemsChanged (items [4, 5, 6])),
          (⟨"c", 10, 5, none⟩, Event.timerFired 0)]
        { moreCount := 3, visible := true, prevInitialIndex := some 0,
          disableViewableItemsHandler := false, viewableItemsChangedTimer := some 1,
          timers := [], lastTimerId := 1 })
      = ({ moreCount := 3, visible := true, prevInitialIndex := some 0,
           disableViewableItemsHandler := false, viewableItemsChangedTimer := some 2,
           timers := [], lastTimerId := 2 }, []) := by
  refine ⟨by decide, by decide, by decide, by decide⟩

/-- What the code does when `initialIndex` is among the visible indices, in a state
that is not suppressed and with `initialIndex > 0`: with `initialIndex >= unreadCount`
the call hides the button, sets the latch and leaves no timeout outstanding; with
`initialIndex < unreadCount` it only schedules an evaluation, which changes nothing. -/
theorem onViewableItemsChanged_marker_viewable (p : Props) (s : Component) (vs : List ViewToken)
    (hown : TimerOwned s)
    (hs : s.disableViewableItemsHandler = false)
    (hi : 0 < p.initialIndex)
    (hasc : (vs.map (fun item => item.index)).Sorted (· ≤ ·))
    (hmem : p.initialIndex ∈ vs.map (fun item => item.index)) :
    (p.unreadCount ≤ p.initialIndex →
      (onViewableItemsChanged p vs s).1.visible = false ∧
      (onViewableItemsChanged p vs s).1.disableViewableItemsHandler = true ∧
      (onViewableItemsChanged p vs s).1.timers = [] ∧
      ∀ (p2 : Props) (vs2 : List ViewToken),
        (onViewableItemsChanged p2 vs2 (onViewableItemsChanged p vs s).1).2 = [] ∧
        (onViewableItemsChanged p2 vs2 (onViewableItemsChanged p vs s).1).1.visible = false ∧
        (onViewableItemsChanged p2 vs2 (onViewableItemsChanged p vs s).1).1.disableViewableItemsHandler
          = true ∧
        (onViewableItemsChanged p2 vs2 (onViewableItemsChanged p vs s).1).1.moreCount = s.moreCount ∧
        (onViewableItemsChanged p2 vs2 (onViewableItemsChanged p vs s).1).1.timers = []) ∧
    (p.initialIndex < p.unreadCount →
      (onViewableItemsChanged p vs s).2 = [] ∧
      (onViewableItemsChanged p vs s).1.visible = s.visible ∧
      (onViewableItemsChanged p vs s).1.disableViewableItemsHandler = false ∧
      (onViewableItemsChanged p vs s).1.moreCount = s.moreCount ∧
      (onViewableItemsChanged p vs s).1.timers =
        [{ id := s.lastTimerId + 1
           delay := if truthyTimer s.viewableItemsChangedTimer then 100 else 0
           viewableIndeces := vs.map (fun item => item.index) }] ∧
      fireTimer p 0 (onViewableItemsChanged p vs s).1 =
        ({ (onViewableItemsChanged p vs s).1 with timers := [] }, [])) := by
  have hne : vs.map (fun item => item.index) ≠ [] := List.ne_nil_of_mem hmem
  have hne2 : vs ≠ [] := by
    intro h; apply hne; simp [h]
  have hf := clearPending_fields s
  have ht := clearPending_timers s hown
  constructor
  · intro hu
    have hl : lastAtLeast (vs.map (fun item => item.index)) p.initialIndex = true := by
      rw [lastAtLeast_iff]
      exact ⟨_, List.getLast?_eq_getLast _ hne, sorted_mem_le_getLast _ hasc _ hmem hne⟩
    rw [onViewableItemsChanged_fast p s vs hi hne2 hs hu hl]
    refine ⟨rfl, rfl, ht, ?_⟩
    intro p2 vs2
    rcases onViewableItemsChanged_suppressed p2
      { clearPending s with visible := false, disableViewableItemsHandler := true } vs2 rfl
      with h | h
    · rw [h]
      exact ⟨rfl, rfl, rfl, hf.2.1, ht⟩
    · rw [h]
      have hf2 := clearPending_fields
        { clearPending s with visible := false, disableViewableItemsHandler := true }
      refine ⟨rfl, hf2.1, hf2.2.2.2.1, hf2.2.1.trans hf.2.1, ?_⟩
      exact clearPending_timers_nil _ ht
  · intro hu
    have hc : (decide (p.initialIndex ≥ p.unreadCount) &&
        lastAtLeast (vs.map (fun item => item.index)) p.initialIndex) = false := by
      have : ¬ p.initialIndex ≥ p.unreadCount := by omega
      simp [this]
    rw [onViewableItemsChanged_slow p s vs hi hne2 hs hc]
    refine ⟨rfl, hf.1, hf.2.2.2.1.trans hs, hf.2.1, ?_, ?_⟩
    · simp [ht]
    · unfold fireTimer
      simp only [ht, List.nil_append]
      simp [viewableItemsChangedHandler, hmem]

/-- Claim C4 fails on the code. With `unreadCount = 10`, `initialIndex = 5`: the
indices `6, 7` are evaluated and the button is shown with `moreCount = 3`; the
indices `6, 7, 8` then schedule a second evaluation (100 ms); `cancel` hides the
button and sets the latch but leaves that timeout outstanding; when it fires, with
no reset in between, `moreCount` becomes `2` and the button is visible again. -/
theorem cancel_leaves_pending_evaluation :
    Reachable
      { moreCount := 3, visible := true, prevInitialIndex := some 0,
        disableViewableItemsHandler := false, viewableItemsChangedTimer := some 2,
        timers := [{ id := 2, delay := 100, viewableIndeces := [6, 7, 8] }], lastTimerId := 2 } ∧
    cancel
      { moreCount := 3, visible := true, prevInitialIndex := some 0,
        disableViewableItemsHandler := false, viewableItemsChangedTimer := some 2,
        timers := [{ id := 2, delay := 100, viewableIndeces := [6, 7, 8] }], lastTimerId := 2 }
      = ({ moreCount := 3, visible := false, prevInitialIndex := some 0,
           disableViewableItemsHandler := true, viewableItemsChangedTimer := some 2,
           timers := [{ id := 2, delay := 100, viewableIndeces := [6, 7, 8] }], lastTimerId := 2 },
         [Effect.spring HIDDEN_TOP]) ∧
    fireTimer ⟨"c", 10, 5, none⟩ 0
      { moreCount := 3, visible := false, prevInitialIndex := some 0,
        disableViewableItemsHandler := true, viewableItemsChangedTimer := some 2,
        timers := [{ id := 2, delay := 100, viewableIndeces := [6, 7, 8] }], lastTimerId := 2 }
      = ({ moreCount := 2, visible := true, prevInitialIndex := some 0,
           disableViewableItemsHandler := true, viewableItemsChangedTimer := some 2,
           timers := [], lastTimerId := 2 },
         [Effect.spring SHOWN_TOP]) := by
  refine ⟨⟨0, [((⟨"c", 10, 5, none⟩ : Props), Event.onViewableItemsChanged (items [6, 7])),
      (⟨"c", 10, 5, none⟩, Event.timerFired 0),
      (⟨"c", 10, 5, none⟩, Event.onViewableItemsChanged (items [6, 7, 8]))], by decide⟩,
    by decide, by decide⟩

/-- Claim C5. Contract of `onMoreMessagesPress`: when `initialIndex` equals
`prevInitialIndex` the call changes nothing and calls nothing; otherwise it stores
`initialIndex` in `prevInitialIndex`, calls `scrollToIndex(initialIndex)` exactly
once and nothing else, and leaves `visible`, the latch, `moreCount`, the timer
handle and the outstanding timeouts as they were. -/
theorem onMoreMessagesPress_contract (p : Props) (s : Component) :
    (s.prevInitialIndex = some p.initialIndex → onMoreMessagesPress p s = (s, [])) ∧
    (s.prevInitialIndex ≠ some p.initialIndex →
      (onMoreMessagesPress p s).2 = [Effect.scrollToIndex p.initialIndex] ∧
      (onMoreMessagesPress p s).1.prevInitialIndex = some p.initialIndex ∧
      (onMoreMessagesPress p s).1.visible = s.visible ∧
      (onMoreMessagesPress p s).1.disableViewableItemsHandler = s.disableViewableItemsHandler ∧
      (onMoreMessagesPress p s).1.moreCount = s.moreCount ∧
      (onMoreMessagesPress p s).1.viewableItemsChangedTimer = s.viewableItemsChangedTimer ∧
      (onMoreMessagesPress p s).1.timers = s.timers ∧
      (onMoreMessagesPress p s).1.lastTimerId = s.lastTimerId) := by
  constructor
  · intro h
    unfold onMoreMessagesPress
    rw [if_pos h]
  · intro h
    unfold onMoreMessagesPress
    rw [if_neg h]
    exact ⟨rfl, rfl, rfl, rfl, rfl, rfl, rfl, rfl⟩

/-- Witness of C5: a newly mounted component (`prevInitialIndex = 0`) with
`initialIndex = 5` scrolls once; pressed again, nothing happens. -/
theorem onMoreMessagesPress_contract_witness :
    (onMoreMessagesPress ⟨"c", 10, 5, none⟩ (mounted 0)).2 = [Effect.scrollToIndex 5] ∧
    onMoreMessagesPress ⟨"c", 10, 5, none⟩ (onMoreMessagesPress ⟨"c", 10, 5, none⟩ (mounted 0)).1
      = ((onMoreMessagesPress ⟨"c", 10, 5, none⟩ (mounted 0)).1, []) :=
  ⟨((onMoreMessagesPress_contract ⟨"c", 10, 5, none⟩ (mounted 0)).2 (by decide)).1,
   (onMoreMessagesPress_contract ⟨"c", 10, 5, none⟩
      (onMoreMessagesPress ⟨"c", 10, 5, none⟩ (mounted 0)).1).1 (by decide)⟩

/-- Claim C6, as stated, fails: when `initialIndex` already equals
`prevInitialIndex`, two presses in succession call `scrollToIndex` zero times. This
is so on a newly mounted component with `initialIndex = 0`, and on the reachable
state in which the button is shown and has been pressed once (`initialIndex = 5`). -/
theorem press_twice_counterexample :
    scrollCalls (run [((⟨"c", 10, 0, none⟩ : Props), Event.onMoreMessagesPress),
      (⟨"c", 10, 0, none⟩, Event.onMoreMessagesPress)] (mounted 0)).2 = [] ∧
    (run [((⟨"c", 10, 5, none⟩ : Props), Event.onViewableItemsChanged (items [6, 7])),
          (⟨"c", 10, 5, none⟩, Event.timerFired 0),
          (⟨"c", 10, 5, none⟩, Event.onMoreMessagesPress)] (mounted 0)).1
      = { moreCount := 3, visible := true, prevInitialIndex := some 5,
          disableViewableItemsHandler := false, viewableItemsChangedTimer := some 1,
          timers := [], lastTimerId := 1 } ∧
    scrollCalls (run [((⟨"c", 10, 5, none⟩ : Props), Event.onMoreMessagesPress),
      (⟨"c", 10, 5, none⟩, Event.onMoreMessagesPress)]
        { moreCount := 3, visible := true, prevInitialIndex := some 5,
          disableViewableItemsHandler := false, viewableItemsChangedTimer := some 1,
          timers := [], lastTimerId := 1 }).2 = [] := by
  refine ⟨by decide, by decide, by decide⟩

/-- Claim C6, amended. Two calls of `onMoreMessagesPress` in succession under the
same `initialIndex` call `scrollToIndex` at most once: exactly once, with
`initialIndex` and from the first call, when `initialIndex` differs from
`prevInitialIndex` before the first call, and not at all when they are equal. The
second call never changes anything. -/
theorem press_twice (p q : Props) (s : Component) (hq : q.initialIndex = p.initialIndex) :
    scrollCalls (run [(p, Event.onMoreMessagesPress), (q, Event.onMoreMessagesPress)] s).2 =
      (if s.prevInitialIndex = some p.initialIndex then [] else [p.initialIndex]) ∧
    onMoreMessagesPress q (onMoreMessagesPress p s).1 = ((onMoreMessagesPress p s).1, []) := by
  have h2 : onMoreMessagesPress q (onMoreMessagesPress p s).1 = ((onMoreMessagesPress p s).1, []) := by
    apply (onMoreMessagesPress_second p q s hq)
  refine ⟨?_, h2⟩
  simp only [run, step, h2, List.append_nil]
  unfold onMoreMessagesPress
  split <;> simp [scrollCalls]

/-- Witness of the amended C6: from a newly mounted component with `initialIndex = 5`
two presses scroll once. -/
theorem press_twice_witness :
    scrollCalls (run [((⟨"c", 10, 5, none⟩ : Props), Event.onMoreMessagesPress),
      (⟨"c", 10, 5, none⟩, Event.onMoreMessagesPress)] (mounted 0)).2 = [5] :=
  (press_twice ⟨"c", 10, 5, none⟩ ⟨"c", 10, 5, none⟩ (mounted 0) rfl).1

/-- Claim C7. Count text of the label: the `countText` handed to the template by
`moreMessage` is the string `"60+"` when `moreCount > 60`, and is the number
`moreCount` itself, which then equals `min 60 moreCount`, when `moreCount <= 60`
(for every integer `moreCount`, in particular every non-negative one). -/
theorem moreMessage_countText (s : Component) :
    (60 < s.moreCount → (moreMessage s).values = CountText.text "60+") ∧
    (s.moreCount ≤ 60 →
      (moreMessage s).values = CountText.number s.moreCount ∧ min 60 s.moreCount = s.moreCount) := by
  constructor
  · intro h
    unfold moreMessage
    rw [intlMoreMessage_values]
    have hm : min 60 s.moreCount = 60 := min_eq_left (le_of_lt h)
    simp only [hm, gt_iff_lt, h, if_true, toString_sixty]
  · intro h
    unfold moreMessage
    rw [intlMoreMessage_values]
    have hm : min 60 s.moreCount = s.moreCount := min_eq_right h
    have hn : ¬ s.moreCount > 60 := by omega
    simp [hm, hn]

/-- Witness of C7 at `moreCount = 61`, `60` and `0`. -/
theorem moreMessage_countText_witness :
    (moreMessage { mounted 0 with moreCount := 61 }).values = CountText.text "60+" ∧
    (moreMessage { mounted 0 with moreCount := 60 }).values = CountText.number 60 ∧
    (moreMessage { mounted 0 with moreCount := 0 }).values = CountText.number 0 :=
  ⟨(moreMessage_countText { mounted 0 with moreCount := 61 }).1 (by decide),
   ((moreMessage_countText { mounted 0 with moreCount := 60 }).2 (by decide)).1,
   ((moreMessage_countText { mounted 0 with moreCount := 0 }).2 (by decide)).1⟩

/-- Claim C8. Template selection of the label: the template returned by
`moreMessage` is fixed by the pair (`prevInitialIndex === 0`, `moreCount === 1`):
first page and singular, first page and plural, next page and singular, next page
and plural. A singular template is selected exactly when `moreCount = 1`, every
other `moreCount` (so every other positive one) selects a plural template, and the
four template ids are pairwise distinct. -/
theorem moreMessage_template (s : Component) :
    (s.prevInitialIndex = some 0 → s.moreCount = 1 →
      (moreMessage s).id = "mobile.more_messages.firstPageSingular" ∧
      (moreMessage s).defaultMessage = "\x7bcountText\x7d new message") ∧
    (s.prevInitialIndex = some 0 → s.moreCount ≠ 1 →
      (moreMessage s).id = "mobile.more_messages.firstPagePlural" ∧
      (moreMessage s).defaultMessage = "\x7bcountText\x7d new messages") ∧
    (s.prevInitialIndex ≠ some 0 → s.moreCount = 1 →
      (moreMessage s).id = "mobile.more_messages.nextPageSingular" ∧
      (moreMessage s).defaultMessage = "\x7bcountText\x7d more new message") ∧
    (s.prevInitialIndex ≠ some 0 → s.moreCount ≠ 1 →
      (moreMessage s).id = "mobile.more_messages.nextPagePlural" ∧
      (moreMessage s).defaultMessage = "\x7bcountText\x7d more new messages") ∧
    (((moreMessage s).id = "mobile.more_messages.firstPageSingular" ∨
      (moreMessage s).id = "mobile.more_messages.nextPageSingular") ↔ s.moreCount = 1) ∧
    (((moreMessage s).id = "mobile.more_messages.firstPagePlural" ∨
      (moreMessage s).id = "mobile.more_messages.nextPagePlural") ↔ s.moreCount ≠ 1) ∧
    ["mobile.more_messages.firstPageSingular", "mobile.more_messages.firstPagePlural",
     "mobile.more_messages.nextPageSingular", "mobile.more_messages.nextPagePlural"].Nodup := by
  refine ⟨?_, ?_, ?_, ?_, ?_, ?_, by decide⟩
  · intro h1 h2; simp [moreMessage, intlMoreMessage, h1, h2]
  · intro h1 h2; simp [moreMessage, intlMoreMessage, h1, h2]
  · intro h1 h2; simp [moreMessage, intlMoreMessage, h1, h2]
  · intro h1 h2; simp [moreMessage, intlMoreMessage, h1, h2]
  · by_cases h1 : s.prevInitialIndex = some 0 <;> by_cases h2 : s.moreCount = 1 <;>
      simp [moreMessage, intlMoreMessage, h1, h2]
  · by_cases h1 : s.prevInitialIndex = some 0 <;> by_cases h2 : s.moreCount = 1 <;>
      simp [moreMessage, intlMoreMessage, h1, h2]

/-- Witness of C8: on a newly mounted component (`prevInitialIndex = 0`) the count
`1` selects the first-page singular template and the count `2` the first-page plural
one; after a press with `initialIndex = 5` the next-page templates are selected. -/
theorem moreMessage_template_witness :
    (moreMessage { mounted 0 with moreCount := 1 }).id = "mobile.more_messages.firstPageSingular" ∧
    (moreMessage { mounted 0 with moreCount := 2 }).id = "mobile.more_messages.firstPagePlural" ∧
    (moreMessage { mounted 0 with moreCount := 1, prevInitialIndex := some 5 }).id
      = "mobile.more_messages.nextPageSingular" ∧
    (moreMessage { mounted 0 with moreCount := 2, prevInitialIndex := some 5 }).id
      = "mobile.more_messages.nextPagePlural" :=
  ⟨((moreMessage_template { mounted 0 with moreCount := 1 }).1 (by decide) (by decide)).1,
   ((moreMessage_template { mounted 0 with moreCount := 2 }).2.1 (by decide) (by decide)).1,
   ((moreMessage_template { mounted 0 with moreCount := 1, prevInitialIndex := some 5 }).2.2.1
      (by decide) (by decide)).1,
   ((moreMessage_template { mounted 0 with moreCount := 2, prevInitialIndex := some 5 }).2.2.2.1
      (by decide) (by decide)).1⟩

/-- Claim C9. Postcondition of `reset`: afterwards `visible = false`,
`prevInitialIndex = 0`, the latch is cleared and no evaluation is pending, so that a
timer firing finds nothing to run; the only animation started is the hide, and only
when the button was visible. Stated for the states in which the outstanding timeout
is the one the timer field refers to, which are all the states a mounted component
reaches. -/
theorem reset_postcondition (s : Component) (hown : TimerOwned s) :
    (reset s).1.visible = false ∧
    (reset s).1.prevInitialIndex = some 0 ∧
    (reset s).1.disableViewableItemsHandler = false ∧
    (reset s).1.timers = [] ∧
    (∀ (p : Props) (k : Nat), fireTimer p k (reset s).1 = ((reset s).1, [])) ∧
    (reset s).2 = (if s.visible then [Effect.spring HIDDEN_TOP] else []) := by
  rw [reset_eq]
  have ht := clearPending_timers s hown
  refine ⟨rfl, rfl, rfl, ht, ?_, rfl⟩
  intro p k
  unfold fireTimer
  simp [ht]

/-- Witness of C9 on the reachable state with the button shown and an evaluation
pending. -/
theorem reset_postcondition_witness :
    reset
      { moreCount := 3, visible := true, prevInitialIndex := some 5,
        disableViewableItemsHandler := false, viewableItemsChangedTimer := some 2,
        timers := [{ id := 2, delay := 100, viewableIndeces := [6, 7, 8] }], lastTimerId := 2 }
      = ({ moreCount := 3, visible := false, prevInitialIndex := some 0,
           disableViewableItemsHandler := false, viewableItemsChangedTimer := some 2,
           timers := [], lastTimerId := 2 }, [Effect.spring HIDDEN_TOP]) ∧
    (reset
      { moreCount := 3, visible := true, prevInitialIndex := some 5,
        disableViewableItemsHandler := false, viewableItemsChangedTimer := some 2,
        timers := [{ id := 2, delay := 100, viewableIndeces := [6, 7, 8] }],
        lastTimerId := 2 }).1.timers = [] :=
  ⟨by decide,
   (reset_postcondition
      { moreCount := 3, visible := true, prevInitialIndex := some 5,
        disableViewableItemsHandler := false, viewableItemsChangedTimer := some 2,
        timers := [{ id := 2, delay := 100, viewableIndeces := [6, 7, 8] }], lastTimerId := 2 }
      (by decide)).2.2.2.1⟩

/-- Claim C10, as stated, fails. On the reachable state with `moreCount = 3`, the
button shown and the handle of an evaluation that has already run, `reset` keeps
`moreCount = 3` and the handle, while a newly mounted component has `moreCount = 0`
and no handle: the states differ, the label differs (count text `3` against `0`),
and the next `onViewableItemsChanged` schedules its evaluation with a delay of
100 ms against 0 ms. -/
theorem reset_not_fresh_counterexample :
    (run [((⟨"c", 10, 5, none⟩ : Props), Event.onViewableItemsChanged (items [6, 7])),
          (⟨"c", 10, 5, none⟩, Event.timerFired 0)] (mounted 0)).1
      = { moreCount := 3, visible := true, prevInitialIndex := some 0,
          disableViewableItemsHandler := false, viewableItemsChangedTimer := some 1,
          timers := [], lastTimerId := 1 } ∧
    (reset { moreCount := 3, visible := true, prevInitialIndex := some 0,
             disableViewableItemsHandler := false, viewableItemsChangedTimer := some 1,
             timers := [], lastTimerId := 1 }).1
      = { moreCount := 3, visible := false, prevInitialIndex := some 0,
          disableViewableItemsHandler := false, viewableItemsChangedTimer := some 1,
          timers := [], lastTimerId := 1 } ∧
    mounted 1
      = { moreCount := 0, visible := false, prevInitialIndex := some 0,
          disableViewableItemsHandler := false, viewableItemsChangedTimer := none,
          timers := [], lastTimerId := 1 } ∧
    (reset { moreCount := 3, visible := true, prevInitialIndex := some 0,
             disableViewableItemsHandler := false, viewableItemsChangedTimer := some 1,
             timers := [], lastTimerId := 1 }).1 ≠ mounted 1 ∧
    (moreMessage
      (reset { moreCount := 3, visible := true, prevInitialIndex := some 0,
               disableViewableItemsHandler := false, viewableItemsChangedTimer := some 1,
               timers := [], lastTimerId := 1 }).1).values = CountText.number 3 ∧
    (moreMessage (mounted 1)).values = CountText.number 0 ∧
    (onViewableItemsChanged ⟨"c", 10, 5, none⟩ (items [6, 7])
      (reset { moreCount := 3, visible := true, prevInitialIndex := some 0,
               disableViewableItemsHandler := false, viewableItemsChangedTimer := some 1,
               timers := [], lastTimerId := 1 }).1).1.timers.map (fun x => x.delay) = [100] ∧
    (onViewableItemsChanged ⟨"c", 10, 5, none⟩ (items [6, 7])
        (mounted 1)).1.timers.map (fun x => x.delay) = [0] := by
  refine ⟨by decide, by decide, by decide, by decide, by decide, by decide, by decide, by decide⟩

/-- Claim C10, amended. After `reset` the state agrees with that of a newly
mounted component in `visible` (false), `prevInitialIndex` (0), the latch (clear)
and in having no evaluation pending, while `moreCount` is the one from before the
reset. Every later sequence of `reset`, `hide`, `cancel`, `onMoreMessagesPress`,
`onViewableItemsChanged` and timer firings (so `show` runs only from an evaluation),
each under the same props in both runs, makes the same calls to `scrollToIndex` and
starts the same animations as on a newly mounted component, ends with the same
`visible`, `prevInitialIndex` and latch and with evaluations of the same indices
pending, and, whenever the button is visible, with the same label. -/
theorem reset_behaves_as_mounted (s : Component) (hown : TimerOwned s) (n : Nat)
    (trace : List (Props × Event)) (hno : ∀ pe ∈ trace, pe.2 ≠ Event.show_) :
    (reset s).1.visible = (mounted n).visible ∧
    (reset s).1.prevInitialIndex = (mounted n).prevInitialIndex ∧
    (reset s).1.disableViewableItemsHandler = (mounted n).disableViewableItemsHandler ∧
    (reset s).1.timers = (mounted n).timers ∧
    (reset s).1.moreCount = s.moreCount ∧
    (run trace (reset s).1).2 = (run trace (mounted n)).2 ∧
    (run trace (reset s).1).1.visible = (run trace (mounted n)).1.visible ∧
    (run trace (reset s).1).1.prevInitialIndex = (run trace (mounted n)).1.prevInitialIndex ∧
    (run trace (reset s).1).1.disableViewableItemsHandler
      = (run trace (mounted n)).1.disableViewableItemsHandler ∧
    (run trace (reset s).1).1.timers.map (fun x => x.viewableIndeces)
      = (run trace (mounted n)).1.timers.map (fun x => x.viewableIndeces) ∧
    ((run trace (reset s).1).1.visible = true →
      moreMessage (run trace (reset s).1).1 = moreMessage (run trace (mounted n)).1) := by
  have ht := clearPending_timers s hown
  have hr : (reset s).1 = { clearPending s with
      visible := false, prevInitialIndex := some 0, disableViewableItemsHandler := false } := by
    rw [reset_eq]
  have hm : mounted n =
      { moreCount := 0, visible := false, prevInitialIndex := some 0,
        disableViewableItemsHandler := false, viewableItemsChangedTimer := none,
        timers := [], lastTimerId := n } := rfl
  have hag : Agree (reset s).1 (mounted n) := by
    rw [hr, hm]
    unfold Agree
    exact ⟨rfl, rfl, rfl, by simp [ht], fun hv => absurd hv (by simp)⟩
  have hos : TimerOwned (reset s).1 := by
    rw [hr]; exact timerOwned_of_nil _ ht
  have h := agree_run trace (reset s).1 (mounted n) hag hos (timerOwned_mounted n) hno
  have ha := h.2
  unfold Agree at ha
  refine ⟨by rw [hr, hm], by rw [hr, hm], by rw [hr, hm], by rw [hr, hm]; exact ht,
    by rw [hr]; exact (clearPending_fields s).2.1, h.1, ha.1, ha.2.1, ha.2.2.1, ha.2.2.2.1, ?_⟩
  intro hv
  unfold moreMessage
  rw [ha.2.2.2.2 hv, ha.2.1]

/-- Witness of the amended C10: the state of the counterexample, then the indices
`6, 7` are reported and evaluated and the button is pressed. -/
theorem reset_behaves_as_mounted_witness :
    (run [((⟨"c", 10, 5, none⟩ : Props), Event.onViewableItemsChanged (items [6, 7])),
          (⟨"c", 10, 5, none⟩, Event.timerFired 0),
          (⟨"c", 10, 5, none⟩, Event.onMoreMessagesPress)]
      (reset { moreCount := 3, visible := true, prevInitialIndex := some 0,
               disableViewableItemsHandler := false, viewableItemsChangedTimer := some 1,
               timers := [], lastTimerId := 1 }).1).2
      = (run [((⟨"c", 10, 5, none⟩ : Props), Event.onViewableItemsChanged (items [6, 7])),
          (⟨"c", 10, 5, none⟩, Event.timerFired 0),
          (⟨"c", 10, 5, none⟩, Event.onMoreMessagesPress)] (mounted 1)).2 ∧
    (run [((⟨"c", 10, 5, none⟩ : Props), Event.onViewableItemsChanged (items [6, 7])),
          (⟨"c", 10, 5, none⟩, Event.timerFired 0),
          (⟨"c", 10, 5, none⟩, Event.onMoreMessagesPress)] (mounted 1)).2
      = [Effect.spring SHOWN_TOP, Effect.scrollToIndex 5] :=
  ⟨(reset_behaves_as_mounted
      { moreCount := 3, visible := true, prevInitialIndex := some 0,
        disableViewableItemsHandler := false, viewableItemsChangedTimer := some 1,
        timers := [], lastTimerId := 1 } (by decide) 1
      [((⟨"c", 10, 5, none⟩ : Props), Event.onViewableItemsChanged (items [6, 7])),
       (⟨"c", 10, 5, none⟩, Event.timerFired 0),
       (⟨"c", 10, 5, none⟩, Event.onMoreMessagesPress)] (by decide)).2.2.2.2.2.1,
   by decide⟩

/-- Claim C11. Invariant on `moreCount`: in every state reached from mount by any
sequence of `reset`, `show`, `hide`, `cancel`, `onMoreMessagesPress`,
`onViewableItemsChanged` and timer firings, under any props and any visible indices
(non-negative or not), `moreCount >= 0`, and `visible = true` implies
`moreCount > 0`. -/
theorem moreCount_invariant (s : Component) (h : Reachable s) :
    0 ≤ s.moreCount ∧ (s.visible = true → 0 < s.moreCount) := by
  obtain ⟨n, trace, rfl⟩ := h
  exact countInv_run trace _ (countInv_mounted n)

/-- Witness of C11 on the state reached by reporting the indices `6, 7` under
`unreadCount = 10`, `initialIndex = 5` and letting the evaluation run. -/
theorem moreCount_invariant_witness :
    (run [((⟨"c", 10, 5, none⟩ : Props), Event.onViewableItemsChanged (items [6, 7])),
          (⟨"c", 10, 5, none⟩, Event.timerFired 0)] (mounted 0)).1.visible = true ∧
    0 < (run [((⟨"c", 10, 5, none⟩ : Props), Event.onViewableItemsChanged (items [6, 7])),
          (⟨"c", 10, 5, none⟩, Event.timerFired 0)] (mounted 0)).1.moreCount :=
  ⟨by decide,
   (moreCount_invariant _
      ⟨0, [((⟨"c", 10, 5, none⟩ : Props), Event.onViewableItemsChanged (items [6, 7])),
          (⟨"c", 10, 5, none⟩, Event.timerFired 0)], rfl⟩).2 (by decide)⟩

/-- Claim C12, as stated, fails. The button is shown while no deep link is active
(`unreadCount = 10`, `initialIndex = 5`, indices `6, 7` evaluated); the
`deepLinkURL` prop then becomes a target, and the button is still visible, also
after a further viewport report and its evaluation under the new props. -/
theorem deepLink_counterexample :
    (run [((⟨"c", 10, 5, none⟩ : Props), Event.onViewableItemsChanged (items [6, 7])),
          (⟨"c", 10, 5, none⟩, Event.timerFired 0)] (mounted 0)).1.visible = true ∧
    truthyString (some "mattermost://permalink") = true ∧
    (run [((⟨"c", 10, 5, none⟩ : Props), Event.onViewableItemsChanged (items [6, 7])),
          (⟨"c", 10, 5, none⟩, Event.timerFired 0),
          (⟨"c", 10, 5, some "mattermost://permalink"⟩,
            Event.onViewableItemsChanged (items [6, 7, 8])),
          (⟨"c", 10, 5, some "mattermost://permalink"⟩, Event.timerFired 0)]
        (mounted 0)).1.visible = true := by
  refine ⟨by decide, by decide, by decide⟩

/-- Claim C12, amended. When every event since mount was delivered under the same
`deepLinkURL`, `visible = true` only if no deep-link target is active (the prop is
absent or empty); and whatever the history, an event delivered while a deep link is
active never turns a hidden button visible. -/
theorem deepLink_priority (n : Nat) (trace : List (Props × Event)) (d : Option String)
    (hd : ∀ pe ∈ trace, pe.1.deepLinkURL = d) :
    ((run trace (mounted n)).1.visible = true → truthyString d = false) ∧
    (∀ (p : Props) (e : Event) (s : Component), truthyString p.deepLinkURL = true →
      s.visible = false → (step p e s).1.visible = false) := by
  constructor
  · intro hv
    cases ht : truthyString d
    · rfl
    · have := run_hidden_under_deepLink trace (mounted n)
        (fun pe hpe => by rw [hd pe hpe]; exact ht) rfl
      rw [this] at hv
      exact absurd hv (by simp)
  · intro p e s hp hs
    cases h : (step p e s).1.visible
    · rfl
    · have := step_visible_under_deepLink p e s hp h
      rw [hs] at this
      exact absurd this (by simp)

/-- Witness of the amended C12: without a deep link the evaluation of `6, 7` shows
the button; under a deep link the same events leave it hidden. -/
theorem deepLink_priority_witness :
    truthyString (none : Option String) = false ∧
    (run [((⟨"c", 10, 5, some "mattermost://permalink"⟩ : Props),
            Event.onViewableItemsChanged (items [6, 7])),
          (⟨"c", 10, 5, some "mattermost://permalink"⟩, Event.timerFired 0)]
        (mounted 0)).1.visible = false :=
  ⟨(deepLink_priority 0
      [((⟨"c", 10, 5, none⟩ : Props), Event.onViewableItemsChanged (items [6, 7])),
       (⟨"c", 10, 5, none⟩, Event.timerFired 0)] none (by decide)).1 (by decide),
   by decide⟩

/-- Claim C13, as stated, fails. After the first evaluation has run no evaluation is
pending, yet the next `onViewableItemsChanged` schedules with a delay of 100 ms; the
same happens for the first call after a `reset`. Only the very first scheduling
after mount has a delay of 0 ms. -/
theorem delay_counterexample :
    (onViewableItemsChanged ⟨"c", 10, 5, none⟩ (items [6, 7]) (mounted 0)).1.timers
      = [{ id := 1, delay := 0, viewableIndeces := [6, 7] }] ∧
    (run [((⟨"c", 10, 5, none⟩ : Props), Event.onViewableItemsChanged (items [6, 7])),
          (⟨"c", 10, 5, none⟩, Event.timerFired 0)] (mounted 0)).1
      = { moreCount := 3, visible := true, prevInitialIndex := some 0,
          disableViewableItemsHandler := false, viewableItemsChangedTimer := some 1,
          timers := [], lastTimerId := 1 } ∧
    (onViewableItemsChanged ⟨"c", 10, 5, none⟩ (items [6, 7, 8])
        { moreCount := 3, visible := true, prevInitialIndex := some 0,
          disableViewableItemsHandler := false, viewableItemsChangedTimer := some 1,
          timers := [], lastTimerId := 1 }).1.timers
      = [{ id := 2, delay := 100, viewableIndeces := [6, 7, 8] }] ∧
    (reset
        { moreCount := 3, visible := true, prevInitialIndex := some 0,
          disableViewableItemsHandler := false, viewableItemsChangedTimer := some 1,
          timers := [], lastTimerId := 1 }).1.timers = [] ∧
    (onViewableItemsChanged ⟨"c", 10, 5, none⟩ (items [6, 7, 8])
        (reset
          { moreCount := 3, visible := true, prevInitialIndex := some 0,
            disableViewableItemsHandler := false, viewableItemsChangedTimer := some 1,
            timers := [], lastTimerId := 1 }).1).1.timers
      = [{ id := 2, delay := 100, viewableIndeces := [6, 7, 8] }] := by
  refine ⟨by decide, by decide, by decide, by decide, by decide⟩

/-- Claim C13, amended. An `onViewableItemsChanged` call that schedules an
evaluation (guard passed, not suppressed, fast path not taken) uses a delay of
100 ms exactly when the timer field already holds a handle, that is when an
evaluation has been scheduled before on this instance, whether it is still pending,
has run or was cleared; otherwise the delay is 0 ms. The field is empty at mount and
holds a handle after the call and after every later sequence of events, so the
delay is 0 ms only for the first scheduling since mount. -/
theorem evaluation_delay (p : Props) (s : Component) (vs : List ViewToken)
    (hown : TimerOwned s)
    (hs : s.disableViewableItemsHandler = false)
    (hi : 0 < p.initialIndex) (hne : vs ≠ [])
    (hc : ¬ (p.unreadCount ≤ p.initialIndex ∧
      lastAtLeast (vs.map (fun item => item.index)) p.initialIndex = true)) :
    (onViewableItemsChanged p vs s).1.timers =
      [{ id := s.lastTimerId + 1
         delay := if truthyTimer s.viewableItemsChangedTimer then 100 else 0
         viewableIndeces := vs.map (fun item => item.index) }] ∧
    (∀ n : Nat, truthyTimer (mounted n).viewableItemsChangedTimer = false) ∧
    (∀ trace : List (Props × Event),
      truthyTimer (run trace (onViewableItemsChanged p vs s).1).1.viewableItemsChangedTimer
        = true) := by
  rw [onViewableItemsChanged_schedules p s vs hown hs hi hne hc]
  refine ⟨rfl, fun n => rfl, fun trace => run_keeps_handle trace _ rfl⟩

/-- Witness of the amended C13: the first scheduling after mount waits 0 ms. -/
theorem evaluation_delay_witness :
    (onViewableItemsChanged ⟨"c", 10, 5, none⟩ (items [6, 7]) (mounted 0)).1.timers
      = [{ id := 1, delay := 0, viewableIndeces := [6, 7] }] :=
  (evaluation_delay ⟨"c", 10, 5, none⟩ (mounted 0) (items [6, 7])
    (by decide) (by decide) (by decide) (by decide) (by decide)).1

/-- Two scheduling calls composed directly, with no firing between them and without
a clock: one timeout is outstanding afterwards, that of the second call, and firing
it runs the evaluation of the indices of the second call. -/
theorem debounce_last_write_wins (p1 p2 q : Props) (s : Component) (vs1 vs2 : List ViewToken)
    (hown : TimerOwned s)
    (hs : s.disableViewableItemsHandler = false)
    (hi1 : 0 < p1.initialIndex) (hne1 : vs1 ≠ [])
    (hc1 : ¬ (p1.unreadCount ≤ p1.initialIndex ∧
      lastAtLeast (vs1.map (fun item => item.index)) p1.initialIndex = true))
    (hi2 : 0 < p2.initialIndex) (hne2 : vs2 ≠ [])
    (hc2 : ¬ (p2.unreadCount ≤ p2.initialIndex ∧
      lastAtLeast (vs2.map (fun item => item.index)) p2.initialIndex = true)) :
    s.timers.length ≤ 1 ∧
    (onViewableItemsChanged p1 vs1 s).1.timers.length = 1 ∧
    (onViewableItemsChanged p2 vs2 (onViewableItemsChanged p1 vs1 s).1).1.timers =
      [{ id := s.lastTimerId + 2, delay := 100, viewableIndeces := vs2.map (fun item => item.index) }] ∧
    fireTimer q 0 (onViewableItemsChanged p2 vs2 (onViewableItemsChanged p1 vs1 s).1).1 =
      viewableItemsChangedHandler q (vs2.map (fun item => item.index))
        { (onViewableItemsChanged p2 vs2 (onViewableItemsChanged p1 vs1 s).1).1 with timers := [] } ∧
    (fireTimer q 0
      (onViewableItemsChanged p2 vs2 (onViewableItemsChanged p1 vs1 s).1).1).1.timers = [] ∧
    (∀ k : Nat, k ≠ 0 →
      fireTimer q k (onViewableItemsChanged p2 vs2 (onViewableItemsChanged p1 vs1 s).1).1 =
        ((onViewableItemsChanged p2 vs2 (onViewableItemsChanged p1 vs1 s).1).1, [])) := by
  have e1 := onViewableItemsChanged_schedules p1 s vs1 hown hs hi1 hne1 hc1
  have hown1 : TimerOwned (onViewableItemsChanged p1 vs1 s).1 :=
    timerOwned_onViewableItemsChanged p1 vs1 s hown
  have hs1 : (onViewableItemsChanged p1 vs1 s).1.disableViewableItemsHandler = false := by
    rw [e1]; exact (clearPending_fields s).2.2.2.1.trans hs
  have e2 := onViewableItemsChanged_schedules p2 (onViewableItemsChanged p1 vs1 s).1 vs2
    hown1 hs1 hi2 hne2 hc2
  have hl : (onViewableItemsChanged p1 vs1 s).1.lastTimerId = s.lastTimerId + 1 := by rw [e1]
  have hh : truthyTimer (onViewableItemsChanged p1 vs1 s).1.viewableItemsChangedTimer = true := by
    rw [e1]; rfl
  have ht2 : (onViewableItemsChanged p2 vs2 (onViewableItemsChanged p1 vs1 s).1).1.timers =
      [{ id := s.lastTimerId + 2, delay := 100,
         viewableIndeces := vs2.map (fun item => item.index) }] := by
    rw [e2]
    simp only [hl, hh, if_true]
  refine ⟨hown.2, by rw [e1]; rfl, ht2, ?_, ?_, ?_⟩
  · unfold fireTimer
    simp only [ht2, List.getElem?_cons_zero, List.eraseIdx_cons_zero]
  · unfold fireTimer
    simp only [ht2, List.getElem?_cons_zero, List.eraseIdx_cons_zero]
    rw [(handler_frame _ _ _).1]
  · intro k hk
    unfold fireTimer
    obtain ⟨m, rfl⟩ := Nat.exists_eq_succ_of_ne_zero hk
    simp only [ht2, List.getElem?_cons_succ, List.getElem?_nil]

/-- Claim C14, as stated, fails. On a newly mounted component the first scheduling
has a delay of 0 ms: with `unreadCount = 10`, `initialIndex = 5`, the indices `6, 7`
reported at time 0 and the indices `6, 7, 8` reported 50 ms later, with nothing but
the clock in between, the timeout of the first call fires before the second call,
and two evaluations run, of `6, 7` (count 3) and then of `6, 7, 8` (count 2),
although the component is not suppressed and neither call takes the guard or the
fast path. -/
theorem debounce_counterexample :
    (clockedMount 0).component.disableViewableItemsHandler = false ∧
    (handleAt 0 ⟨"c", 10, 5, none⟩ (Event.onViewableItemsChanged (items [6, 7]))
        (clockedMount 0)).1.component.timers
      = [{ id := 1, delay := 0, viewableIndeces := [6, 7] }] ∧
    (deliver 50 ⟨"c", 10, 5, none⟩ ⟨"c", 10, 5, none⟩
        (Event.onViewableItemsChanged (items [6, 7, 8]))
        (handleAt 0 ⟨"c", 10, 5, none⟩ (Event.onViewableItemsChanged (items [6, 7]))
          (clockedMount 0)).1).1
      = { component :=
            { moreCount := 3, visible := true, prevInitialIndex := some 0,
              disableViewableItemsHandler := false, viewableItemsChangedTimer := some 2,
              timers := [{ id := 2, delay := 100, viewableIndeces := [6, 7, 8] }],
              lastTimerId := 2 }
          due := [(2, 150), (1, 0)]
          evaluations := [[6, 7]] } ∧
    (twoCalls 0 50 1000 ⟨"c", 10, 5, none⟩ ⟨"c", 10, 5, none⟩ ⟨"c", 10, 5, none⟩
        ⟨"c", 10, 5, none⟩ (items [6, 7]) (items [6, 7, 8]) (clockedMount 0)).evaluations
      = [[6, 7], [6, 7, 8]] ∧
    (twoCalls 0 50 1000 ⟨"c", 10, 5, none⟩ ⟨"c", 10, 5, none⟩ ⟨"c", 10, 5, none⟩
        ⟨"c", 10, 5, none⟩ (items [6, 7]) (items [6, 7, 8]) (clockedMount 0)).component.moreCount
      = 2 := by
  refine ⟨by decide, by decide, by decide, by decide, by decide⟩

/-- Claim C14, amended. Two `onViewableItemsChanged` calls that both schedule (guard
passed, fast path not taken), the first at time `t1` and the second less than 100 ms
later at `t2`, from a state that is not suppressed and with nothing but the clock
between them. When the timer field already holds a handle (an evaluation has been
scheduled before on this instance), or when both calls come at the same instant,
exactly one evaluation runs, the one of the indices of the second call. When the
timer field is still empty (first scheduling since mount) and the second call comes
later than the first, the first call has a delay of 0 ms and its evaluation runs
before the second call, so two evaluations run, in call order. In every case at most
one evaluation is pending after the first call, when the second call arrives and
after it, and none is pending once the last delay has passed. -/
theorem debounce_timed (t1 t2 t3 : Nat) (p1 pf p2 q : Props) (vs1 vs2 : List ViewToken)
    (c : Clocked)
    (hown : TimerOwned c.component)
    (hs : c.component.disableViewableItemsHandler = false)
    (hi1 : 0 < p1.initialIndex) (hne1 : vs1 ≠ [])
    (hc1 : ¬ (p1.unreadCount ≤ p1.initialIndex ∧
      lastAtLeast (vs1.map (fun item => item.index)) p1.initialIndex = true))
    (hi2 : 0 < p2.initialIndex) (hne2 : vs2 ≠ [])
    (hc2 : ¬ (p2.unreadCount ≤ p2.initialIndex ∧
      lastAtLeast (vs2.map (fun item => item.index)) p2.initialIndex = true))
    (h12 : t1 ≤ t2) (hlt : t2 < t1 + 100) (h3 : t2 + 100 < t3) :
    (twoCalls t1 t2 t3 p1 pf p2 q vs1 vs2 c).evaluations =
      c.evaluations ++
        (if truthyTimer c.component.viewableItemsChangedTimer = false ∧ t1 < t2 then
          [vs1.map (fun item => item.index), vs2.map (fun item => item.index)]
        else [vs2.map (fun item => item.index)]) ∧
    (handleAt t1 p1 (Event.onViewableItemsChanged vs1) c).1.component.timers.length ≤ 1 ∧
    (advance pf t2
      (handleAt t1 p1 (Event.onViewableItemsChanged vs1) c).1).1.component.timers.length ≤ 1 ∧
    (deliver t2 pf p2 (Event.onViewableItemsChanged vs2)
      (handleAt t1 p1 (Event.onViewableItemsChanged vs1) c).1).1.component.timers.length ≤ 1 ∧
    (twoCalls t1 t2 t3 p1 pf p2 q vs1 vs2 c).component.timers = [] := by
  have hf := schedules_facts p1 c.component vs1 hown hs hi1 hne1 hc1
  have hc1eq : (handleAt t1 p1 (Event.onViewableItemsChanged vs1) c).1 =
      { component := (onViewableItemsChanged p1 vs1 c.component).1
        due := (c.component.lastTimerId + 1,
          t1 + (if truthyTimer c.component.viewableItemsChangedTimer then 100 else 0)) :: c.due
        evaluations := c.evaluations } := by
    rw [handleAt_schedules t1 p1 c vs1 hown hs hi1 hne1 hc1]
  have hown1 : TimerOwned (onViewableItemsChanged p1 vs1 c.component).1 :=
    timerOwned_onViewableItemsChanged p1 vs1 c.component hown
  have hh1 : truthyTimer (onViewableItemsChanged p1 vs1 c.component).1.viewableItemsChangedTimer
      = true := by rw [hf.2.2.2.1]; rfl
  have hsplit : deliver t2 pf p2 (Event.onViewableItemsChanged vs2)
      (handleAt t1 p1 (Event.onViewableItemsChanged vs1) c).1 =
      ((handleAt t2 p2 (Event.onViewableItemsChanged vs2)
        (advance pf t2 (handleAt t1 p1 (Event.onViewableItemsChanged vs1) c).1).1).1,
       (advance pf t2 (handleAt t1 p1 (Event.onViewableItemsChanged vs1) c).1).2 ++
       (handleAt t2 p2 (Event.onViewableItemsChanged vs2)
        (advance pf t2 (handleAt t1 p1 (Event.onViewableItemsChanged vs1) c).1).1).2) := rfl
  have hlen1 : (handleAt t1 p1 (Event.onViewableItemsChanged vs1)
      c).1.component.timers.length ≤ 1 := by
    rw [hc1eq]; exact hown1.2
  unfold twoCalls
  rw [hsplit]
  by_cases hfire : t1 + (if truthyTimer c.component.viewableItemsChangedTimer then 100 else 0) < t2
  · -- the timeout of the first call is due before the second call
    have htr : truthyTimer c.component.viewableItemsChangedTimer = false := by
      cases h : truthyTimer c.component.viewableItemsChangedTimer
      · rfl
      · rw [h] at hfire; simp only [if_true] at hfire; omega
    have hcond : truthyTimer c.component.viewableItemsChangedTimer = false ∧ t1 < t2 := by
      refine ⟨htr, ?_⟩
      rw [htr] at hfire
      simp at hfire
      exact hfire
    have hadv := advance_single_due pf t2
      { component := (onViewableItemsChanged p1 vs1 c.component).1
        due := (c.component.lastTimerId + 1,
          t1 + (if truthyTimer c.component.viewableItemsChangedTimer then 100 else 0)) :: c.due
        evaluations := c.evaluations }
      { id := c.component.lastTimerId + 1
        delay := if truthyTimer c.component.viewableItemsChangedTimer then 100 else 0
        viewableIndeces := vs1.map (fun item => item.index) }
      _ hf.2.1 (dueOf_head _ _ _) hfire
    rw [hc1eq, hadv, if_pos hcond]
    have hfr := handler_frame pf (vs1.map (fun item => item.index))
      { (onViewableItemsChanged p1 vs1 c.component).1 with timers := [] }
    have hw := call_then_wait t2 t3 p2 q vs2
      { component := (viewableItemsChangedHandler pf (vs1.map (fun item => item.index))
          { (onViewableItemsChanged p1 vs1 c.component).1 with timers := [] }).1
        due := (c.component.lastTimerId + 1,
          t1 + (if truthyTimer c.component.viewableItemsChangedTimer then 100 else 0)) :: c.due
        evaluations := c.evaluations ++ [vs1.map (fun item => item.index)] }
      (timerOwned_of_nil _ hfr.1)
      (hfr.2.2.2.trans hf.2.2.1)
      (by rw [hfr.2.1]; exact hh1)
      hi2 hne2 hc2 h3
    refine ⟨?_, hlen1, ?_, hw.1, hw.2.2⟩
    · rw [hw.2.1]
      simp
    · rw [hfr.1]
      simp
  · -- the timeout of the first call is still outstanding at the second call
    have hcond : ¬ (truthyTimer c.component.viewableItemsChangedTimer = false ∧ t1 < t2) := by
      intro h
      apply hfire
      rw [h.1]
      simp
      exact h.2
    have hadv := advance_single_notdue pf t2
      { component := (onViewableItemsChanged p1 vs1 c.component).1
        due := (c.component.lastTimerId + 1,
          t1 + (if truthyTimer c.component.viewableItemsChangedTimer then 100 else 0)) :: c.due
        evaluations := c.evaluations }
      { id := c.component.lastTimerId + 1
        delay := if truthyTimer c.component.viewableItemsChangedTimer then 100 else 0
        viewableIndeces := vs1.map (fun item => item.index) }
      _ hf.2.1 (dueOf_head _ _ _) hfire
    rw [hc1eq, hadv, if_neg hcond]
    have hw := call_then_wait t2 t3 p2 q vs2
      { component := (onViewableItemsChanged p1 vs1 c.component).1
        due := (c.component.lastTimerId + 1,
          t1 + (if truthyTimer c.component.viewableItemsChangedTimer then 100 else 0)) :: c.due
        evaluations := c.evaluations }
      hown1 hf.2.2.1 hh1 hi2 hne2 hc2 h3
    exact ⟨hw.2.1, hlen1, hown1.2, hw.1, hw.2.2⟩

/-- Witness of the amended C14: after a first burst (two evaluations, see the
counterexample) the timer field holds a handle; the indices `6, 7, 8` at time 2000
and `7, 8` at time 2050 then lead to a single further evaluation, of `7, 8`. -/
theorem debounce_timed_witness :
    (twoCalls 2000 2050 3000 ⟨"c", 10, 5, none⟩ ⟨"c", 10, 5, none⟩ ⟨"c", 10, 5, none⟩
        ⟨"c", 10, 5, none⟩ (items [6, 7, 8]) (items [7, 8])
        { component :=
            { moreCount := 2, visible := true, prevInitialIndex := some 0,
              disableViewableItemsHandler := false, viewableItemsChangedTimer := some 2,
              timers := [], lastTimerId := 2 }
          due := [(2, 150), (1, 0)]
          evaluations := [[6, 7], [6, 7, 8]] }).evaluations
      = [[6, 7], [6, 7, 8]] ++ [[7, 8]] :=
  (debounce_timed 2000 2050 3000 ⟨"c", 10, 5, none⟩ ⟨"c", 10, 5, none⟩ ⟨"c", 10, 5, none⟩
      ⟨"c", 10, 5, none⟩ (items [6, 7, 8]) (items [7, 8])
      { component :=
          { moreCount := 2, visible := true, prevInitialIndex := some 0,
            disableViewableItemsHandler := false, viewableItemsChangedTimer := some 2,
            timers := [], lastTimerId := 2 }
        due := [(2, 150), (1, 0)]
        evaluations := [[6, 7], [6, 7, 8]] }
      (by decide) (by decide) (by decide) (by decide) (by decide) (by decide) (by decide)
      (by decide) (by decide) (by decide) (by decide)).1

/-- Claim C15. Guarded no-op of `onViewableItemsChanged`: when `initialIndex <= 0`
or the sequence of visible items is empty, the call returns the state it was given
(`visible`, the latch, `moreCount`, `prevInitialIndex`, the timer handle and the
outstanding timeout, which is not cleared) and makes no call to `scrollToIndex` and
starts no animation. -/
theorem onViewableItemsChanged_guard (p : Props) (s : Component) (vs : List ViewToken)
    (h : p.initialIndex ≤ 0 ∨ vs = []) :
    onViewableItemsChanged p vs s = (s, []) := by
  rw [onViewableItemsChanged_cases, if_pos h]

/-- Witness of C15: with `initialIndex = 0`, and with no visible items, a pending
evaluation and a visible button are left as they are. -/
theorem onViewableItemsChanged_guard_witness :
    (onViewableItemsChanged ⟨"c", 10, 0, none⟩ (items [6, 7])
      { moreCount := 3, visible := true, prevInitialIndex := some 0,
        disableViewableItemsHandler := false, viewableItemsChangedTimer := some 2,
        timers := [{ id := 2, delay := 100, viewableIndeces := [6, 7, 8] }],
        lastTimerId := 2 }).1.timers
      = [{ id := 2, delay := 100, viewableIndeces := [6, 7, 8] }] ∧
    (onViewableItemsChanged ⟨"c", 10, 5, none⟩ []
      { moreCount := 3, visible := true, prevInitialIndex := some 0,
        disableViewableItemsHandler := false, viewableItemsChangedTimer := some 2,
        timers := [{ id := 2, delay := 100, viewableIndeces := [6, 7, 8] }],
        lastTimerId := 2 }).2 = [] := by
  constructor
  · rw [onViewableItemsChanged_guard ⟨"c", 10, 0, none⟩ _ (items [6, 7]) (Or.inl (by decide))]
  · rw [onViewableItemsChanged_guard ⟨"c", 10, 5, none⟩ _ [] (Or.inr rfl)]

/-- Claim C16. Edge-triggered transitions. `show` starts an animation, to
`SHOWN_TOP = 10`, exactly when it changes `visible` from false to true, which
happens exactly when `visible` is false, `moreCount > 0` and no deep link is active;
`hide` starts an animation, to `HIDDEN_TOP = -100`, exactly when it changes
`visible` from true to false, which happens exactly when `visible` is true. In every
other case each returns the state unchanged and starts nothing, and neither ever
changes `moreCount`, `prevInitialIndex`, the latch, the timer handle or the
outstanding timeouts. -/
theorem show_hide_edge_triggered (p : Props) (s : Component) :
    (SHOWN_TOP = 10 ∧ HIDDEN_TOP = -100) ∧
    (((s.visible = false ∧ (show_ p s).1.visible = true) ↔
        (s.visible = false ∧ 0 < s.moreCount ∧ truthyString p.deepLinkURL = false)) ∧
      ((s.visible = false ∧ (show_ p s).1.visible = true) → (show_ p s).2 = [Effect.spring SHOWN_TOP]) ∧
      (¬ (s.visible = false ∧ (show_ p s).1.visible = true) → show_ p s = (s, []))) ∧
    (((s.visible = true ∧ (hide s).1.visible = false) ↔ s.visible = true) ∧
      ((s.visible = true ∧ (hide s).1.visible = false) → (hide s).2 = [Effect.spring HIDDEN_TOP]) ∧
      (¬ (s.visible = true ∧ (hide s).1.visible = false) → hide s = (s, []))) ∧
    ((show_ p s).1.moreCount = s.moreCount ∧
      (show_ p s).1.prevInitialIndex = s.prevInitialIndex ∧
      (show_ p s).1.disableViewableItemsHandler = s.disableViewableItemsHandler ∧
      (show_ p s).1.viewableItemsChangedTimer = s.viewableItemsChangedTimer ∧
      (show_ p s).1.timers = s.timers ∧
      (show_ p s).1.lastTimerId = s.lastTimerId) ∧
    ((hide s).1.moreCount = s.moreCount ∧
      (hide s).1.prevInitialIndex = s.prevInitialIndex ∧
      (hide s).1.disableViewableItemsHandler = s.disableViewableItemsHandler ∧
      (hide s).1.viewableItemsChangedTimer = s.viewableItemsChangedTimer ∧
      (hide s).1.timers = s.timers ∧
      (hide s).1.lastTimerId = s.lastTimerId) := by
  refine ⟨⟨rfl, rfl⟩, ?_, ?_, ?_, ?_⟩
  · by_cases hc : (!s.visible && decide (s.moreCount > 0) && !truthyString p.deepLinkURL) = true
    · have e : show_ p s = ({ s with visible := true }, [Effect.spring SHOWN_TOP]) := by
        unfold show_; rw [if_pos hc]
      simp only [Bool.and_eq_true, Bool.not_eq_true', decide_eq_true_eq] at hc
      rw [e]
      refine ⟨?_, fun _ => rfl, fun h => absurd ⟨hc.1.1, rfl⟩ h⟩
      constructor
      · intro _; exact ⟨hc.1.1, hc.1.2, hc.2⟩
      · intro _; exact ⟨hc.1.1, rfl⟩
    · have e : show_ p s = (s, []) := by
        unfold show_; rw [if_neg hc]
      simp only [Bool.and_eq_true, Bool.not_eq_true', decide_eq_true_eq] at hc
      rw [e]
      refine ⟨?_, ?_, fun _ => rfl⟩
      · constructor
        · intro h; rw [h.1] at h; exact absurd h.2 (by simp)
        · intro h; exact absurd ⟨⟨h.1, h.2.1⟩, h.2.2⟩ hc
      · intro h; rw [h.1] at h; exact absurd h.2 (by simp)
  · by_cases hv : s.visible = true
    · have e : hide s = ({ s with visible := false }, [Effect.spring HIDDEN_TOP]) := by
        unfold hide; rw [if_pos hv]
      rw [e]
      refine ⟨⟨fun h => h.1, fun h => ⟨h, rfl⟩⟩, fun _ => rfl, fun h => absurd ⟨hv, rfl⟩ h⟩
    · have e : hide s = (s, []) := by
        unfold hide; rw [if_neg hv]
      rw [e]
      refine ⟨⟨fun h => h.1, fun h => absurd h hv⟩, fun h => absurd h.1 hv, fun _ => rfl⟩
  · rw [show_eq]
    exact ⟨rfl, rfl, rfl, rfl, rfl, rfl⟩
  · rw [hide_eq]
    exact ⟨rfl, rfl, rfl, rfl, rfl, rfl⟩

/-- Witness of C16: with `moreCount = 3` a hidden button is shown with one
animation to `10`; shown again, nothing happens; under a deep link nothing is
started. -/
theorem show_hide_edge_triggered_witness :
    (show_ ⟨"c", 10, 5, none⟩ { mounted 0 with moreCount := 3 }).2 = [Effect.spring 10] ∧
    show_ ⟨"c", 10, 5, none⟩ { mounted 0 with moreCount := 3, visible := true }
      = ({ mounted 0 with moreCount := 3, visible := true }, []) ∧
    show_ ⟨"c", 10, 5, some "mattermost://permalink"⟩ { mounted 0 with moreCount := 3 }
      = ({ mounted 0 with moreCount := 3 }, []) :=
  ⟨(show_hide_edge_triggered ⟨"c", 10, 5, none⟩ { mounted 0 with moreCount := 3 }).2.1.2.1
      ⟨by decide, by decide⟩,
   (show_hide_edge_triggered ⟨"c", 10, 5, none⟩
      { mounted 0 with moreCount := 3, visible := true }).2.1.2.2 (by decide),
   (show_hide_edge_triggered ⟨"c", 10, 5, some "mattermost://permalink"⟩
      { mounted 0 with moreCount := 3 }).2.1.2.2 (by decide)⟩

end MoreMessages

namespace NetworkIndicator

/-- Claim C17 fails on the code. For every store state that has
`state.requests.general.websocket`, in a host that defines no global
`currentChannelId`, `mapStateToProps` throws `ReferenceError: currentChannelId is
not defined` instead of returning props: the name is bound by no declaration of the
function or the module. Where the host does define such a global, the
`isManuallyUnread` prop is computed for the value of that global, not for
`getCurrentChannelId(state)`. -/
theorem mapStateToProps_throws {σ : Type} (env : Env σ) (state : σ) (g : String) :
    "currentChannelId" ∉ functionScope ++ moduleScope ∧
    mapStateToProps env noGlobals state =
      (match env.websocket state with
       | some _ => Except.error (JsError.referenceError "currentChannelId")
       | none => Except.error
          (JsError.typeError "websocket is undefined")) ∧
    mapStateToProps env (fun name => if name = "currentChannelId" then some g else none) state =
      (match env.websocket state with
       | some w =>
         Except.ok
           { currentChannelId := env.getCurrentChannelId state
             isManuallyUnread := env.isManuallyUnread state g
             isLandscape := env.isLandscape state
             isOnline := env.getConnection state
             websocketErrorCount := w.error
             websocketStatus := w.status }
       | none => Except.error
          (JsError.typeError "websocket is undefined")) := by
  refine ⟨by decide, ?_, ?_⟩
  · unfold mapStateToProps
    cases env.websocket state <;> rfl
  · unfold mapStateToProps
    cases env.websocket state <;> simp [readUnbound]

end NetworkIndicator

namespace Permalink

/-- Claim C18. Permalink `mapStateToProps` defaults. When no post with id
`currentFocusedPostId` exists, neither the channel selector nor the post-id selector
is called, and `channelId = ''`, `channelIsArchived = false`, `channelName = ''`,
`channelTeamId = ''` and `postIds` is `undefined`. When the post exists but its
channel does not, the same four channel defaults are returned. When the channel
exists, `channelId = channel.id`, `channelIsArchived` is true exactly when
`channel.delete_at` is not `0`, and the name and team are those of the channel. In
all cases `focusedPostId` is `state.entities.posts.currentFocusedPostId`. -/
theorem mapStateToProps_defaults {σ θ μ : Type} (env : Env σ θ μ) (state : σ) :
    (env.getPost state (env.currentFocusedPostId state) = none →
      (mapStateToProps env state).1.channelId = "" ∧
      (mapStateToProps env state).1.channelIsArchived = false ∧
      (mapStateToProps env state).1.channelName = "" ∧
      (mapStateToProps env state).1.channelTeamId = "" ∧
      (mapStateToProps env state).1.postIds = none ∧
      (∀ c ∈ (mapStateToProps env state).2,
        (∀ id, c ≠ Call.getChannel id) ∧ (∀ a b m n, c ≠ Call.getPostIdsAroundPost a b m n))) ∧
    (∀ post : Post, env.getPost state (env.currentFocusedPostId state) = some post →
      env.getChannel state post.channel_id = none →
      (mapStateToProps env state).1.channelId = "" ∧
      (mapStateToProps env state).1.channelIsArchived = false ∧
      (mapStateToProps env state).1.channelName = "" ∧
      (mapStateToProps env state).1.channelTeamId = "" ∧
      (mapStateToProps env state).1.postIds =
        env.getPostIdsAroundPost state (env.currentFocusedPostId state) post.channel_id 10 10) ∧
    (∀ (post : Post) (channel : Channel),
      env.getPost state (env.currentFocusedPostId state) = some post →
      env.getChannel state post.channel_id = some channel →
      (mapStateToProps env state).1.channelId = channel.id ∧
      ((mapStateToProps env state).1.channelIsArchived = true ↔ channel.delete_at ≠ 0) ∧
      (mapStateToProps env state).1.channelName = channel.display_name ∧
      (mapStateToProps env state).1.channelTeamId = channel.team_id ∧
      (mapStateToProps env state).1.postIds =
        env.getPostIdsAroundPost state (env.currentFocusedPostId state) post.channel_id 10 10) ∧
    (mapStateToProps env state).1.focusedPostId = env.currentFocusedPostId state := by
  refine ⟨?_, ?_, ?_, rfl⟩
  · intro h
    simp [mapStateToProps, h]
  · intro post h hch
    simp [mapStateToProps, h, hch]
  · intro post channel h hch
    simp [mapStateToProps, h, hch]

/-- Witness of C18 on the sample store: an unknown post, a post in an unknown
channel, and a post in an archived channel. -/
theorem mapStateToProps_defaults_witness :
    (mapStateToProps sampleEnv (some "p9")).1.channelId = "" ∧
    (mapStateToProps sampleEnv (some "p9")).1.postIds = none ∧
    (mapStateToProps sampleEnv (some "p2")).1.channelId = "" ∧
    (mapStateToProps sampleEnv (some "p1")).1.channelId = "c1" ∧
    (mapStateToProps sampleEnv (some "p1")).1.channelIsArchived = true :=
  ⟨((mapStateToProps_defaults sampleEnv (some "p9")).1 (by decide)).1,
   ((mapStateToProps_defaults sampleEnv (some "p9")).1 (by decide)).2.2.2.2.1,
   ((mapStateToProps_defaults sampleEnv (some "p2")).2.1
      { id := "p2", channel_id := "c2" } (by decide) (by decide)).1,
   ((mapStateToProps_defaults sampleEnv (some "p1")).2.2.1
      { id := "p1", channel_id := "c1" }
      { id := "c1", delete_at := 1600000000000, display_name := "Town Square", team_id := "t1" }
      (by decide) (by decide)).1,
   (((mapStateToProps_defaults sampleEnv (some "p1")).2.2.1
      { id := "p1", channel_id := "c1" }
      { id := "c1", delete_at := 1600000000000, display_name := "Town Square", team_id := "t1" }
      (by decide) (by decide)).2.1).2 (by decide)⟩

end Permalink
